import Mathlib

/-!
Collisions2D: a shallow embedding of `CollisionShapes2D.h`.

The header computes intersection points between 2D shapes (lines, segments,
rays, circles, polygons, axis-aligned rectangles).

The embedding has two readings of the `float` arithmetic of the source.

* The exact reading (`LineVsLine`, `CircleVsStandardLine`, ...): `float` is an
  arbitrary linearly ordered field `K` and every operation is exact.  It is what
  the code computes at an input where no operation rounds.  `sqrt` is a
  parameter `sqrt : K → K`; theorems that need the square root to be exact assume
  `sqrt d * sqrt d = d` at the one argument `d` the code passes.
* The float reading (`LineVsLineR`, `CircleVsStandardLineR`, ...): every float
  operation of the source is the exact operation followed by one rounding
  `fl : K → K`.  With `fl = round32` on the rationals this is IEEE binary32 with
  round to nearest, ties to even, one rounding per operation and an unbounded
  exponent range (no overflow, no underflow, no NaN; the two zeros are not told
  apart); `sqrt32` is the correctly rounded square root.  With `fl = id` it is
  the exact reading.

In both readings the only places where the source can divide by zero are the
two quotients of `IsLegalSegment`; they return `none`, which stands for the
non-finite IEEE values.  All other divisions are guarded by a test `== 0` in the
source.  `Points` (`std::vector<olc::vf2d>`) is `List (vf2d K)`.  All definitions
are computable; at `K = ℚ` they can be evaluated.

The claims whose truth does not depend on rounding (loops, guards, the order of
the result, the closed scenarios) are proved on the exact reading.  The claims
whose truth depends on rounding are proved on the float reading under the
hypothesis that no operation rounds at the input, with a counterexample under
`round32` at an input where one does.
-/

namespace Collisions2D

/-! ## The vector type and the shapes -/

/-- Modelled from the spec: `olc::vf2d` comes from `olcPixelGameEngine.h`, which
is not part of the sources; it is a pair of floats with componentwise addition,
subtraction, scaling, Euclidean magnitude and exact equality. -/
structure vf2d (K : Type) where
  x : K
  y : K
deriving DecidableEq

/-- The type `Points`, a `std::vector<olc::vf2d>`. -/
abbrev Points (K : Type) := List (vf2d K)

structure Line (K : Type) where
  p1 : vf2d K
  p2 : vf2d K
deriving DecidableEq

structure Segment (K : Type) where
  p1 : vf2d K
  p2 : vf2d K
deriving DecidableEq

structure Ray (K : Type) where
  pos : vf2d K
  dir : vf2d K
deriving DecidableEq

structure Circle (K : Type) where
  pos : vf2d K
  radius : K
deriving DecidableEq

structure Polygon (K : Type) where
  points : Points K
deriving DecidableEq

structure RectAABB (K : Type) where
  pos : vf2d K
  size : vf2d K
deriving DecidableEq

structure StandardForm (K : Type) where
  A : K
  B : K
  C : K
deriving DecidableEq

section Defs

variable {K : Type} [LinearOrderedField K]

/-- Modelled from the spec: `operator+` of `olc::vf2d` (from `olcPixelGameEngine.h`,
not part of the sources), the componentwise sum. -/
def vf2d.add (a b : vf2d K) : vf2d K := ⟨a.x + b.x, a.y + b.y⟩

/-- Modelled from the spec: `operator-` of `olc::vf2d` (from `olcPixelGameEngine.h`,
not part of the sources), the componentwise difference. -/
def vf2d.sub (a b : vf2d K) : vf2d K := ⟨a.x - b.x, a.y - b.y⟩

/-- Modelled from the spec: `operator*` of `olc::vf2d` (from `olcPixelGameEngine.h`,
not part of the sources), the scaling by a scalar. -/
def vf2d.scale (a : vf2d K) (k : K) : vf2d K := ⟨a.x * k, a.y * k⟩

/-- Modelled from the spec: `mag()` of `olc::vf2d` (from `olcPixelGameEngine.h`, not
part of the sources), the Euclidean magnitude `sqrt (x * x + y * y)`. -/
def vf2d.mag (sqrt : K → K) (a : vf2d K) : K := sqrt (a.x * a.x + a.y * a.y)

/-- `Segment::AsLine`. -/
def Segment.AsLine (s : Segment K) : Line K := ⟨s.p1, s.p2⟩

/-- `Ray::AsLine`. -/
def Ray.AsLine (r : Ray K) : Line K := ⟨r.pos, r.dir⟩

/-- `Ray::AsSegment`: `Segment{ pos, (dir - pos) * 1000 }`. -/
def Ray.AsSegment (r : Ray K) : Segment K := ⟨r.pos, (r.dir.sub r.pos).scale 1000⟩

/-- `Polygon::PointAfter`: `(i < points.size() - 1) ? points[i + 1] : points[0]`.
The subtraction is the truncated one of `Nat`; it agrees with the unsigned
subtraction of the source whenever `points` is not empty, and the loops below
never call `PointAfter` on an empty polygon. -/
def Polygon.PointAfter (p : Polygon K) (i : Nat) : vf2d K :=
  if i < p.points.length - 1 then p.points.getD (i + 1) ⟨0, 0⟩ else p.points.getD 0 ⟨0, 0⟩

/-- `RectAABB::AsPolygon`. -/
def RectAABB.AsPolygon (r : RectAABB K) : Polygon K :=
  ⟨[r.pos, ⟨r.pos.x + r.size.x, r.pos.y⟩, r.pos.add r.size, ⟨r.pos.x, r.pos.y + r.size.y⟩]⟩

/-! ## Utility -/

/-- `IsBetween`: `f > low && f < high`. -/
def IsBetween (f low high : K) : Bool := decide (f > low) && decide (f < high)

/-- The float quotient `a / b` where the source does not guard the divisor:
`none` stands for the non-finite results (`+inf`, `-inf`, `NaN`) of a division
by zero. -/
def fdiv (a b : K) : Option K := if b = 0 then none else some (a / b)

/-- `IsBetween` on the result of `fdiv`.  A non-finite float is never strictly
between two finite bounds: `NaN` fails both comparisons, `+inf` fails
`f < high` and `-inf` fails `f > low`. -/
def IsBetweenF : Option K → K → K → Bool
  | some f, low, high => IsBetween f low high
  | none, _, _ => false

/-- `IsLegalSegment`: whether an intersection is within the bounds of a segment. -/
def IsLegalSegment (i : vf2d K) (s : Segment K) : Bool :=
  let checkx := fdiv (i.x - s.p1.x) (s.p2.x - s.p1.x)
  let checky := fdiv (i.y - s.p1.y) (s.p2.y - s.p1.y)
  IsBetweenF checkx 0 1 || IsBetweenF checky 0 1

/-- `GetStandardForm`: the standard form `A x + B y = C` of a line. -/
def GetStandardForm (l : Line K) : StandardForm K :=
  let A := l.p2.y - l.p1.y
  let B := l.p1.x - l.p2.x
  let C := A * l.p1.x + B * l.p1.y
  ⟨A, B, C⟩

/-- The sentinel `NULL_SEG`. -/
def NULL_SEG : Segment K := ⟨⟨0, 0⟩, ⟨0, 0⟩⟩

/-- `SegmentIntersections`.  The loop pushes a candidate to the back of
`result`; the default argument `seg2 = NULL_SEG` of the source is passed
explicitly by the callers below. -/
def SegmentIntersections (intersections : Points K) (seg1 seg2 : Segment K) : Points K :=
  if intersections.length > 0 then
    intersections.foldl
      (fun result p =>
        if IsLegalSegment p seg1 then
          if seg2 = NULL_SEG then result ++ [p]
          else if IsLegalSegment p seg2 then result ++ [p] else result
        else result)
      []
  else []

/-- `CircleVsStandardLine`: the circle/line solver in the local space of the
circle.  Only the value `0` of the discriminant is tested. -/
def CircleVsStandardLine (sqrt : K → K) (c : Circle K) (s : StandardForm K) : Points K :=
  let fA2byB2 := (s.A * s.A) + (s.B * s.B)
  if fA2byB2 = 0 then []
  else
    let fSqrt := (c.radius * c.radius) * fA2byB2 - (s.C * s.C)
    if fSqrt = 0 then []
    else
      [ (vf2d.mk (((s.A * s.C) + s.B * sqrt fSqrt) / fA2byB2)
                 (((s.B * s.C) - s.A * sqrt fSqrt) / fA2byB2)).add c.pos,
        (vf2d.mk (((s.A * s.C) - s.B * sqrt fSqrt) / fA2byB2)
                 (((s.B * s.C) + s.A * sqrt fSqrt) / fA2byB2)).add c.pos ]

/-! ## Containment -/

/-- `PointInCircle`. -/
def PointInCircle (sqrt : K → K) (p : vf2d K) (c : Circle K) : Bool :=
  decide ((c.pos.sub p).mag sqrt < c.radius)

/-- `PointInRect`. -/
def PointInRect (p : vf2d K) (r : RectAABB K) : Bool :=
  decide (p.x > r.pos.x) && decide (p.y > r.pos.y) &&
    decide (p.x < r.pos.x + r.size.x) && decide (p.y < r.pos.y + r.size.y)

/-! ## Line vs. -/

/-- `LineVsLine`. -/
def LineVsLine (l1 l2 : Line K) : Points K :=
  let s1 := GetStandardForm l1
  let s2 := GetStandardForm l2
  let fDenom := s1.A * s2.B - s2.A * s1.B
  if fDenom = 0 then []
  else
    [ ⟨(s2.B * s1.C - s1.B * s2.C) / fDenom, (s2.C * s1.A - s1.C * s2.A) / fDenom⟩ ]

/-- `LineVsSegment`. -/
def LineVsSegment (l : Line K) (s : Segment K) : Points K :=
  SegmentIntersections (LineVsLine l s.AsLine) s NULL_SEG

/-- `LineVsRay`. -/
def LineVsRay (l : Line K) (r : Ray K) : Points K :=
  SegmentIntersections (LineVsLine l r.AsLine) r.AsSegment NULL_SEG

/-- `LineVsCircle`.  The loop `for (olc::vf2d p : intersections) p += c.pos;`
binds `p` by value: the sums are computed and dropped, and `intersections` is
returned as `CircleVsStandardLine` produced it. -/
def LineVsCircle (sqrt : K → K) (l : Line K) (c : Circle K) : Points K :=
  let t : Line K := ⟨l.p1.sub c.pos, l.p2.sub c.pos⟩
  let intersections := CircleVsStandardLine sqrt c (GetStandardForm t)
  let _copies := intersections.map (fun p => p.add c.pos)
  intersections

/-- `LineVsPolygon`: each block of points is inserted at `result.begin()`. -/
def LineVsPolygon (l : Line K) (p : Polygon K) : Points K :=
  (List.range p.points.length).foldl
    (fun result i =>
      LineVsSegment l ⟨p.points.getD i ⟨0, 0⟩, p.PointAfter i⟩ ++ result)
    []

/-- `LineVsRectAABB`. -/
def LineVsRectAABB (l : Line K) (r : RectAABB K) : Points K :=
  LineVsPolygon l r.AsPolygon

/-! ## Segment vs. -/

/-- `SegmentVsSegment`. -/
def SegmentVsSegment (s1 s2 : Segment K) : Points K :=
  SegmentIntersections (LineVsLine s1.AsLine s2.AsLine) s1 s2

/-- `SegmentVsRay`. -/
def SegmentVsRay (s : Segment K) (r : Ray K) : Points K :=
  SegmentIntersections (LineVsLine s.AsLine r.AsLine) s r.AsSegment

/-- `SegmentVsCircle`. -/
def SegmentVsCircle (sqrt : K → K) (s : Segment K) (c : Circle K) : Points K :=
  SegmentIntersections (LineVsCircle sqrt s.AsLine c) s NULL_SEG

/-- `SegmentVsPolygon`. -/
def SegmentVsPolygon (s : Segment K) (p : Polygon K) : Points K :=
  (List.range p.points.length).foldl
    (fun result i =>
      SegmentVsSegment s ⟨p.points.getD i ⟨0, 0⟩, p.PointAfter i⟩ ++ result)
    []

/-- `SegmentVsRectAABB`. -/
def SegmentVsRectAABB (s : Segment K) (r : RectAABB K) : Points K :=
  SegmentVsPolygon s r.AsPolygon

/-! ## Ray vs. -/

/-- `RayVsRay`. -/
def RayVsRay (r1 r2 : Ray K) : Points K :=
  SegmentIntersections (LineVsLine r1.AsLine r2.AsLine) r1.AsSegment r2.AsSegment

/-- `RayVsCircle`. -/
def RayVsCircle (sqrt : K → K) (r : Ray K) (c : Circle K) : Points K :=
  SegmentIntersections (SegmentVsCircle sqrt r.AsSegment c) r.AsSegment NULL_SEG

/-- `RayVsPolygon`. -/
def RayVsPolygon (r : Ray K) (p : Polygon K) : Points K :=
  (List.range p.points.length).foldl
    (fun result i =>
      SegmentVsRay ⟨p.points.getD i ⟨0, 0⟩, p.PointAfter i⟩ r ++ result)
    []

/-- `RayVsRectAABB`. -/
def RayVsRectAABB (r : Ray K) (rect : RectAABB K) : Points K :=
  RayVsPolygon r rect.AsPolygon

/-! ## Circle vs. -/

/-- `CircleVsCircle`.  As in `LineVsCircle`, the final loop works on copies and
leaves `intersections` unchanged. -/
def CircleVsCircle (sqrt : K → K) (c1 c2 : Circle K) : Points K :=
  let p1 := c1.pos.sub c1.pos
  let p2 := c2.pos.sub c1.pos
  let r1 := c1.radius
  let r2 := c2.radius
  let LineBetween : StandardForm K :=
    ⟨2 * (p2.x - p1.x), 2 * (p2.y - p1.y),
     (r1 * r1) - (p1.x * p1.x) - (p1.y * p1.y) - (r2 * r2) + (p2.x * p2.x) + (p2.y * p2.y)⟩
  let intersections := CircleVsStandardLine sqrt c1 LineBetween
  let _copies := intersections.map (fun p => p.add c1.pos)
  intersections

/-- `CircleVsPolygon`. -/
def CircleVsPolygon (sqrt : K → K) (c : Circle K) (p : Polygon K) : Points K :=
  (List.range p.points.length).foldl
    (fun result i =>
      SegmentVsCircle sqrt ⟨p.points.getD i ⟨0, 0⟩, p.PointAfter i⟩ c ++ result)
    []

/-- `CircleVsRectAABB`. -/
def CircleVsRectAABB (sqrt : K → K) (c : Circle K) (r : RectAABB K) : Points K :=
  CircleVsPolygon sqrt c r.AsPolygon

/-! ## Polygon vs. and RectAABB vs. -/

/-- `PolygonVsPolygon`. -/
def PolygonVsPolygon (p1 p2 : Polygon K) : Points K :=
  (List.range p1.points.length).foldl
    (fun result i =>
      SegmentVsPolygon ⟨p1.points.getD i ⟨0, 0⟩, p1.PointAfter i⟩ p2 ++ result)
    []

/-- `PolygonVsRectAABB`. -/
def PolygonVsRectAABB (p1 : Polygon K) (r : RectAABB K) : Points K :=
  PolygonVsPolygon p1 r.AsPolygon

/-- `RectAABBVsRectAABB`. -/
def RectAABBVsRectAABB (r1 r2 : RectAABB K) : Points K :=
  PolygonVsPolygon r1.AsPolygon r2.AsPolygon

/-! ## Geometric vocabulary of the specification -/

/-- The cross product of the direction vectors `p2 - p1` of two lines. -/
def cross (l1 l2 : Line K) : K :=
  (l1.p2.x - l1.p1.x) * (l2.p2.y - l2.p1.y) - (l1.p2.y - l1.p1.y) * (l2.p2.x - l2.p1.x)

/-- Two lines are parallel when the cross product of their directions is zero. -/
def Parallel (l1 l2 : Line K) : Prop := cross l1 l2 = 0

/-- The point `q` is collinear with the two points that define `l`. -/
def OnLine (q : vf2d K) (l : Line K) : Prop :=
  (q.x - l.p1.x) * (l.p2.y - l.p1.y) = (q.y - l.p1.y) * (l.p2.x - l.p1.x)

/-- The point `q` lies strictly between the endpoints of `s`:
`q = s.p1 + t * (s.p2 - s.p1)` for some `0 < t < 1`. -/
def StrictlyInside (q : vf2d K) (s : Segment K) : Prop :=
  ∃ t : K, 0 < t ∧ t < 1 ∧
    q.x = s.p1.x + t * (s.p2.x - s.p1.x) ∧ q.y = s.p1.y + t * (s.p2.y - s.p1.y)

/-- The squared Euclidean distance between two points. -/
def sqDist (a b : vf2d K) : K := (a.x - b.x) * (a.x - b.x) + (a.y - b.y) * (a.y - b.y)

/-- The discriminant `r^2 (A^2 + B^2) - C^2` of the circle/line system. -/
def discriminant (c : Circle K) (s : StandardForm K) : K :=
  (c.radius * c.radius) * ((s.A * s.A) + (s.B * s.B)) - (s.C * s.C)

/-- The line `l` translated into the local space of the circle `c`. -/
def localLine (l : Line K) (c : Circle K) : Line K := ⟨l.p1.sub c.pos, l.p2.sub c.pos⟩

/-- The edge list of a polygon in the words of the specification: edge `i` runs
from vertex `i` to vertex `(i + 1) mod n`. -/
def edgesSpec (p : Polygon K) : List (Segment K) :=
  (List.range p.points.length).map
    (fun i => ⟨p.points.getD i ⟨0, 0⟩, p.points.getD ((i + 1) % p.points.length) ⟨0, 0⟩⟩)

/-- The standard form `LineBetween` that `CircleVsCircle` builds: the radical
line of the two circles in the local space of `c1`. -/
def radicalLine (c1 c2 : Circle K) : StandardForm K :=
  let p1 := c1.pos.sub c1.pos
  let p2 := c2.pos.sub c1.pos
  let r1 := c1.radius
  let r2 := c2.radius
  ⟨2 * (p2.x - p1.x), 2 * (p2.y - p1.y),
   (r1 * r1) - (p1.x * p1.x) - (p1.y * p1.y) - (r2 * r2) + (p2.x * p2.x) + (p2.y * p2.y)⟩

/-- The point `q` lies on the half-line that starts at `r.pos` and passes
through `r.dir`: `q = r.pos + t * (r.dir - r.pos)` for some `t ≥ 0`. -/
def OnRay (q : vf2d K) (r : Ray K) : Prop :=
  ∃ t : K, 0 ≤ t ∧
    q.x = r.pos.x + t * (r.dir.x - r.pos.x) ∧ q.y = r.pos.y + t * (r.dir.y - r.pos.y)

/-- Number of binary digits of `n`, with fuel. -/
def bitLengthAux : Nat → Nat → Nat
  | 0, _ => 0
  | fuel + 1, n => if n = 0 then 0 else bitLengthAux fuel (n / 2) + 1

/-- Number of binary digits of `n` (`0` for `0`). -/
def bitLength (n : Nat) : Nat := bitLengthAux n n

/-- The integer `e` with `2^e ≤ a < 2^(e+1)`, for a positive rational `a`. -/
def floorLog2 (a : ℚ) : Int :=
  let e0 : Int := (bitLength a.num.natAbs : Int) - (bitLength a.den : Int)
  if (2 : ℚ) ^ e0 ≤ a then e0 else e0 - 1

/-- Rounding of a rational to the nearest integer, ties to the even one. -/
def roundHalfEven (y : ℚ) : Int :=
  let f := ⌊y⌋
  let r := y - f
  if r < 1 / 2 then f else if 1 / 2 < r then f + 1 else if f % 2 = 0 then f else f + 1

/-- Rounding to the nearest binary32 value, ties to even: `x` is scaled so that
its integer part has 24 binary digits, rounded, and scaled back. -/
def round32 (x : ℚ) : ℚ :=
  if x = 0 then 0
  else
    let q := floorLog2 |x| - 23
    (roundHalfEven (x / (2 : ℚ) ^ q) : ℚ) * (2 : ℚ) ^ q

/-- Integer square root, with fuel. -/
def isqrtAux : Nat → Nat → Nat
  | 0, _ => 0
  | fuel + 1, n =>
    if n = 0 then 0
    else
      let r := 2 * isqrtAux fuel (n / 4)
      if (r + 1) * (r + 1) ≤ n then r + 1 else r

/-- Integer square root: the largest `r` with `r * r ≤ n`. -/
def isqrt (n : Nat) : Nat := isqrtAux n n

/-- The correctly rounded binary32 square root of a positive rational.  At
arguments `x ≤ 0` the value is `0`; the source yields NaN at negative ones. -/
def sqrt32 (x : ℚ) : ℚ :=
  if x ≤ 0 then 0
  else
    let q := floorLog2 x / 2 - 23
    let t := x / (2 : ℚ) ^ (2 * q)
    let f : ℚ := (isqrt ⌊t⌋.toNat : ℚ)
    let n : ℚ :=
      if t < (f + 1 / 2) * (f + 1 / 2) then f
      else if (f + 1 / 2) * (f + 1 / 2) < t then f + 1
      else if (isqrt ⌊t⌋.toNat) % 2 = 0 then f else f + 1
    n * (2 : ℚ) ^ q

/-- Float `operator+` of `olc::vf2d`: each component is rounded. -/
def vf2d.addR (fl : K → K) (a b : vf2d K) : vf2d K := ⟨fl (a.x + b.x), fl (a.y + b.y)⟩

/-- Float `operator-` of `olc::vf2d`: each component is rounded. -/
def vf2d.subR (fl : K → K) (a b : vf2d K) : vf2d K := ⟨fl (a.x - b.x), fl (a.y - b.y)⟩

/-- `RectAABB::AsPolygon` with float sums. -/
def RectAABB.AsPolygonR (fl : K → K) (r : RectAABB K) : Polygon K :=
  ⟨[r.pos, ⟨fl (r.pos.x + r.size.x), r.pos.y⟩, r.pos.addR fl r.size,
    ⟨r.pos.x, fl (r.pos.y + r.size.y)⟩]⟩

/-- The float quotient of `IsLegalSegment`: `none` for a zero divisor, the rounded
quotient otherwise. -/
def fdivR (fl : K → K) (a b : K) : Option K := if b = 0 then none else some (fl (a / b))

/-- `IsLegalSegment` with float differences and quotients. -/
def IsLegalSegmentR (fl : K → K) (i : vf2d K) (s : Segment K) : Bool :=
  let checkx := fdivR fl (fl (i.x - s.p1.x)) (fl (s.p2.x - s.p1.x))
  let checky := fdivR fl (fl (i.y - s.p1.y)) (fl (s.p2.y - s.p1.y))
  IsBetweenF checkx 0 1 || IsBetweenF checky 0 1

/-- `GetStandardForm` with float operations. -/
def GetStandardFormR (fl : K → K) (l : Line K) : StandardForm K :=
  let A := fl (l.p2.y - l.p1.y)
  let B := fl (l.p1.x - l.p2.x)
  let C := fl (fl (A * l.p1.x) + fl (B * l.p1.y))
  ⟨A, B, C⟩

/-- `SegmentIntersections` with the float membership test. -/
def SegmentIntersectionsR (fl : K → K) (intersections : Points K) (seg1 seg2 : Segment K) :
    Points K :=
  if intersections.length > 0 then
    intersections.foldl
      (fun result p =>
        if IsLegalSegmentR fl p seg1 then
          if seg2 = NULL_SEG then result ++ [p]
          else if IsLegalSegmentR fl p seg2 then result ++ [p] else result
        else result)
      []
  else []

/-- `CircleVsStandardLine` with float operations; `sqrt` is the float square root. -/
def CircleVsStandardLineR (fl : K → K) (sqrt : K → K) (c : Circle K) (s : StandardForm K) :
    Points K :=
  let fA2byB2 := fl (fl (s.A * s.A) + fl (s.B * s.B))
  if fA2byB2 = 0 then []
  else
    let fSqrt := fl (fl (fl (c.radius * c.radius) * fA2byB2) - fl (s.C * s.C))
    if fSqrt = 0 then []
    else
      [ (vf2d.mk (fl (fl (fl (s.A * s.C) + fl (s.B * sqrt fSqrt)) / fA2byB2))
                 (fl (fl (fl (s.B * s.C) - fl (s.A * sqrt fSqrt)) / fA2byB2))).addR fl c.pos,
        (vf2d.mk (fl (fl (fl (s.A * s.C) - fl (s.B * sqrt fSqrt)) / fA2byB2))
                 (fl (fl (fl (s.B * s.C) + fl (s.A * sqrt fSqrt)) / fA2byB2))).addR fl c.pos ]

/-- `PointInCircle` with float operations: `mag()` is the float square root of the
float sum of the float squares. -/
def PointInCircleR (fl : K → K) (sqrt : K → K) (p : vf2d K) (c : Circle K) : Bool :=
  decide (sqrt (fl (fl ((c.pos.subR fl p).x * (c.pos.subR fl p).x)
      + fl ((c.pos.subR fl p).y * (c.pos.subR fl p).y))) < c.radius)

/-- `PointInRect` with float sums. -/
def PointInRectR (fl : K → K) (p : vf2d K) (r : RectAABB K) : Bool :=
  decide (p.x > r.pos.x) && decide (p.y > r.pos.y) &&
    decide (p.x < fl (r.pos.x + r.size.x)) && decide (p.y < fl (r.pos.y + r.size.y))

/-- `LineVsLine` with float operations. -/
def LineVsLineR (fl : K → K) (l1 l2 : Line K) : Points K :=
  let s1 := GetStandardFormR fl l1
  let s2 := GetStandardFormR fl l2
  let fDenom := fl (fl (s1.A * s2.B) - fl (s2.A * s1.B))
  if fDenom = 0 then []
  else
    [ ⟨fl (fl (fl (s2.B * s1.C) - fl (s1.B * s2.C)) / fDenom),
       fl (fl (fl (s2.C * s1.A) - fl (s1.C * s2.A)) / fDenom)⟩ ]

/-- `LineVsCircle` with float operations. -/
def LineVsCircleR (fl : K → K) (sqrt : K → K) (l : Line K) (c : Circle K) : Points K :=
  let t : Line K := ⟨l.p1.subR fl c.pos, l.p2.subR fl c.pos⟩
  let intersections := CircleVsStandardLineR fl sqrt c (GetStandardFormR fl t)
  let _copies := intersections.map (fun p => p.addR fl c.pos)
  intersections

/-- `SegmentVsSegment` with float operations. -/
def SegmentVsSegmentR (fl : K → K) (s1 s2 : Segment K) : Points K :=
  SegmentIntersectionsR fl (LineVsLineR fl s1.AsLine s2.AsLine) s1 s2

/-- `SegmentVsCircle` with float operations. -/
def SegmentVsCircleR (fl : K → K) (sqrt : K → K) (s : Segment K) (c : Circle K) : Points K :=
  SegmentIntersectionsR fl (LineVsCircleR fl sqrt s.AsLine c) s NULL_SEG

/-- `SegmentVsPolygon` with float operations. -/
def SegmentVsPolygonR (fl : K → K) (s : Segment K) (p : Polygon K) : Points K :=
  (List.range p.points.length).foldl
    (fun result i =>
      SegmentVsSegmentR fl s ⟨p.points.getD i ⟨0, 0⟩, p.PointAfter i⟩ ++ result)
    []

/-- `CircleVsCircle` with float operations. -/
def CircleVsCircleR (fl : K → K) (sqrt : K → K) (c1 c2 : Circle K) : Points K :=
  let p1 := c1.pos.subR fl c1.pos
  let p2 := c2.pos.subR fl c1.pos
  let r1 := c1.radius
  let r2 := c2.radius
  let LineBetween : StandardForm K :=
    ⟨fl (2 * fl (p2.x - p1.x)), fl (2 * fl (p2.y - p1.y)),
     fl (fl (fl (fl (fl (fl (r1 * r1) - fl (p1.x * p1.x)) - fl (p1.y * p1.y)) - fl (r2 * r2))
        + fl (p2.x * p2.x)) + fl (p2.y * p2.y))⟩
  let intersections := CircleVsStandardLineR fl sqrt c1 LineBetween
  let _copies := intersections.map (fun p => p.addR fl c1.pos)
  intersections

/-- `PolygonVsPolygon` with float operations. -/
def PolygonVsPolygonR (fl : K → K) (p1 p2 : Polygon K) : Points K :=
  (List.range p1.points.length).foldl
    (fun result i =>
      SegmentVsPolygonR fl ⟨p1.points.getD i ⟨0, 0⟩, p1.PointAfter i⟩ p2 ++ result)
    []

/-! ## The values of the float operations

For each function, the list of the values its float operations produce when
none of them rounds.  "No operation rounds at this input" is the statement
`∀ x ∈ ops, fl x = x`; under it the float reading and the exact reading agree. -/

/-- The values of the operations of `GetStandardForm`. -/
def GetStandardForm.ops (l : Line K) : List K :=
  [l.p2.y - l.p1.y, l.p1.x - l.p2.x, (l.p2.y - l.p1.y) * l.p1.x, (l.p1.x - l.p2.x) * l.p1.y,
   (l.p2.y - l.p1.y) * l.p1.x + (l.p1.x - l.p2.x) * l.p1.y]

/-- The values of the operations that compute `fDenom` in `LineVsLine`. -/
def fDenom.ops (l1 l2 : Line K) : List K :=
  GetStandardForm.ops l1 ++ GetStandardForm.ops l2 ++
    [(GetStandardForm l1).A * (GetStandardForm l2).B,
     (GetStandardForm l2).A * (GetStandardForm l1).B,
     (GetStandardForm l1).A * (GetStandardForm l2).B
       - (GetStandardForm l2).A * (GetStandardForm l1).B]

/-- The values of the operations of `LineVsLine`; the point is computed only
when `fDenom` is not zero. -/
def LineVsLine.ops (l1 l2 : Line K) : List K :=
  fDenom.ops l1 l2 ++
    if (GetStandardForm l1).A * (GetStandardForm l2).B
        - (GetStandardForm l2).A * (GetStandardForm l1).B = 0 then []
    else
      [(GetStandardForm l2).B * (GetStandardForm l1).C,
       (GetStandardForm l1).B * (GetStandardForm l2).C,
       (GetStandardForm l2).B * (GetStandardForm l1).C
         - (GetStandardForm l1).B * (GetStandardForm l2).C,
       ((GetStandardForm l2).B * (GetStandardForm l1).C
         - (GetStandardForm l1).B * (GetStandardForm l2).C)
         / ((GetStandardForm l1).A * (GetStandardForm l2).B
             - (GetStandardForm l2).A * (GetStandardForm l1).B),
       (GetStandardForm l2).C * (GetStandardForm l1).A,
       (GetStandardForm l1).C * (GetStandardForm l2).A,
       (GetStandardForm l2).C * (GetStandardForm l1).A
         - (GetStandardForm l1).C * (GetStandardForm l2).A,
       ((GetStandardForm l2).C * (GetStandardForm l1).A
         - (GetStandardForm l1).C * (GetStandardForm l2).A)
         / ((GetStandardForm l1).A * (GetStandardForm l2).B
             - (GetStandardForm l2).A * (GetStandardForm l1).B)]

/-- The values of the operations of `IsLegalSegment`; a quotient is a value only
when its divisor is not zero. -/
def IsLegalSegment.ops (i : vf2d K) (s : Segment K) : List K :=
  [i.x - s.p1.x, s.p2.x - s.p1.x, i.y - s.p1.y, s.p2.y - s.p1.y] ++
    (if s.p2.x - s.p1.x = 0 then [] else [(i.x - s.p1.x) / (s.p2.x - s.p1.x)]) ++
    (if s.p2.y - s.p1.y = 0 then [] else [(i.y - s.p1.y) / (s.p2.y - s.p1.y)])

/-- The values of the operations of `SegmentVsSegment`: those of `LineVsLine` and,
for the candidate point, those of the two membership tests. -/
def SegmentVsSegment.ops (s1 s2 : Segment K) : List K :=
  LineVsLine.ops s1.AsLine s2.AsLine ++
    (LineVsLine s1.AsLine s2.AsLine).flatMap
      (fun q => IsLegalSegment.ops q s1 ++ IsLegalSegment.ops q s2)

/-- The values of the operations of `CircleVsStandardLine`; the points are
computed only when `A^2 + B^2` and the discriminant are not zero. -/
def CircleVsStandardLine.ops (sqrt : K → K) (c : Circle K) (s : StandardForm K) : List K :=
  [s.A * s.A, s.B * s.B, (s.A * s.A) + (s.B * s.B)] ++
    if (s.A * s.A) + (s.B * s.B) = 0 then []
    else
      [c.radius * c.radius, (c.radius * c.radius) * ((s.A * s.A) + (s.B * s.B)), s.C * s.C,
       discriminant c s] ++
        if discriminant c s = 0 then []
        else
          [s.A * s.C, s.B * s.C, s.B * sqrt (discriminant c s), s.A * sqrt (discriminant c s),
           (s.A * s.C) + s.B * sqrt (discriminant c s),
           (s.B * s.C) - s.A * sqrt (discriminant c s),
           (s.A * s.C) - s.B * sqrt (discriminant c s),
           (s.B * s.C) + s.A * sqrt (discriminant c s),
           ((s.A * s.C) + s.B * sqrt (discriminant c s)) / ((s.A * s.A) + (s.B * s.B)),
           ((s.B * s.C) - s.A * sqrt (discriminant c s)) / ((s.A * s.A) + (s.B * s.B)),
           ((s.A * s.C) - s.B * sqrt (discriminant c s)) / ((s.A * s.A) + (s.B * s.B)),
           ((s.B * s.C) + s.A * sqrt (discriminant c s)) / ((s.A * s.A) + (s.B * s.B)),
           ((s.A * s.C) + s.B * sqrt (discriminant c s)) / ((s.A * s.A) + (s.B * s.B)) + c.pos.x,
           ((s.B * s.C) - s.A * sqrt (discriminant c s)) / ((s.A * s.A) + (s.B * s.B)) + c.pos.y,
           ((s.A * s.C) - s.B * sqrt (discriminant c s)) / ((s.A * s.A) + (s.B * s.B)) + c.pos.x,
           ((s.B * s.C) + s.A * sqrt (discriminant c s)) / ((s.A * s.A) + (s.B * s.B)) + c.pos.y]

/-- The values of the operations of `LineVsCircle`: the translation of the line,
its standard form, and the solver. -/
def LineVsCircle.ops (sqrt : K → K) (l : Line K) (c : Circle K) : List K :=
  [l.p1.x - c.pos.x, l.p1.y - c.pos.y, l.p2.x - c.pos.x, l.p2.y - c.pos.y] ++
    GetStandardForm.ops (localLine l c) ++
    CircleVsStandardLine.ops sqrt c (GetStandardForm (localLine l c))

/-- The values of the operations of `SegmentVsCircle`: those of `LineVsCircle` and,
for each candidate point, those of the membership test. -/
def SegmentVsCircle.ops (sqrt : K → K) (s : Segment K) (c : Circle K) : List K :=
  LineVsCircle.ops sqrt s.AsLine c ++
    (LineVsCircle sqrt s.AsLine c).flatMap (fun q => IsLegalSegment.ops q s)

/-- The values of the operations of `CircleVsCircle`: the translation of the
centres, the coefficients of `LineBetween`, and the solver. -/
def CircleVsCircle.ops (sqrt : K → K) (c1 c2 : Circle K) : List K :=
  [c1.pos.x - c1.pos.x, c1.pos.y - c1.pos.y, c2.pos.x - c1.pos.x, c2.pos.y - c1.pos.y,
   (c2.pos.x - c1.pos.x) - (c1.pos.x - c1.pos.x), (c2.pos.y - c1.pos.y) - (c1.pos.y - c1.pos.y),
   (radicalLine c1 c2).A, (radicalLine c1 c2).B,
   c1.radius * c1.radius,
   (c1.pos.x - c1.pos.x) * (c1.pos.x - c1.pos.x),
   (c1.pos.y - c1.pos.y) * (c1.pos.y - c1.pos.y),
   c2.radius * c2.radius,
   (c2.pos.x - c1.pos.x) * (c2.pos.x - c1.pos.x),
   (c2.pos.y - c1.pos.y) * (c2.pos.y - c1.pos.y),
   (c1.radius * c1.radius) - ((c1.pos.x - c1.pos.x) * (c1.pos.x - c1.pos.x)),
   (c1.radius * c1.radius) - ((c1.pos.x - c1.pos.x) * (c1.pos.x - c1.pos.x))
     - ((c1.pos.y - c1.pos.y) * (c1.pos.y - c1.pos.y)),
   (c1.radius * c1.radius) - ((c1.pos.x - c1.pos.x) * (c1.pos.x - c1.pos.x))
     - ((c1.pos.y - c1.pos.y) * (c1.pos.y - c1.pos.y)) - (c2.radius * c2.radius),
   (c1.radius * c1.radius) - ((c1.pos.x - c1.pos.x) * (c1.pos.x - c1.pos.x))
     - ((c1.pos.y - c1.pos.y) * (c1.pos.y - c1.pos.y)) - (c2.radius * c2.radius)
     + ((c2.pos.x - c1.pos.x) * (c2.pos.x - c1.pos.x)),
   (radicalLine c1 c2).C] ++
    CircleVsStandardLine.ops sqrt c1 (radicalLine c1 c2)

/-- The values of the operations of `PointInCircle` before the square root. -/
def PointInCircle.ops (p : vf2d K) (c : Circle K) : List K :=
  [c.pos.x - p.x, c.pos.y - p.y, (c.pos.x - p.x) * (c.pos.x - p.x),
   (c.pos.y - p.y) * (c.pos.y - p.y),
   (c.pos.x - p.x) * (c.pos.x - p.x) + (c.pos.y - p.y) * (c.pos.y - p.y)]

end Defs

/-! ## Auxiliary lemmas -/

section Lemmas

variable {K : Type} [LinearOrderedField K]

theorem vf2d_ne_iff (a b : vf2d K) : a ≠ b ↔ (a.x ≠ b.x ∨ a.y ≠ b.y) := by
  cases a; cases b
  simp only [ne_eq, vf2d.mk.injEq]
  tauto

theorem fDenom_eq_cross (l1 l2 : Line K) :
    (GetStandardForm l1).A * (GetStandardForm l2).B
      - (GetStandardForm l2).A * (GetStandardForm l1).B = cross l1 l2 := by
  simp only [GetStandardForm, cross]
  ring

theorem LineVsLine_of_cross_ne_zero (l1 l2 : Line K) (h : cross l1 l2 ≠ 0) :
    LineVsLine l1 l2 =
      [ ⟨((GetStandardForm l2).B * (GetStandardForm l1).C
            - (GetStandardForm l1).B * (GetStandardForm l2).C) / cross l1 l2,
         ((GetStandardForm l2).C * (GetStandardForm l1).A
            - (GetStandardForm l1).C * (GetStandardForm l2).A) / cross l1 l2⟩ ] := by
  have hd := fDenom_eq_cross l1 l2
  simp only [LineVsLine, hd, if_neg h]

/-- The point computed by `LineVsLine` lies on both lines. -/
theorem LineVsLine_point_onLine (l1 l2 : Line K) (h : cross l1 l2 ≠ 0) (q : vf2d K)
    (hq : q ∈ LineVsLine l1 l2) : OnLine q l1 ∧ OnLine q l2 := by
  rw [LineVsLine_of_cross_ne_zero l1 l2 h, List.mem_singleton] at hq
  subst hq
  have hc : (l1.p2.x - l1.p1.x) * (l2.p2.y - l2.p1.y)
      - (l1.p2.y - l1.p1.y) * (l2.p2.x - l2.p1.x) ≠ 0 := h
  simp only [OnLine, GetStandardForm, cross]
  constructor
  · field_simp
    ring
  · field_simp
    ring

/-- The loop of `SegmentIntersections` is a filter that keeps the order. -/
theorem SegmentIntersections_foldl (seg1 seg2 : Segment K) (pts acc : Points K) :
    pts.foldl
        (fun result p =>
          if IsLegalSegment p seg1 then
            if seg2 = NULL_SEG then result ++ [p]
            else if IsLegalSegment p seg2 then result ++ [p] else result
          else result)
        acc
      = acc ++ pts.filter
          (fun p => IsLegalSegment p seg1 && (decide (seg2 = NULL_SEG) || IsLegalSegment p seg2)) := by
  induction pts generalizing acc with
  | nil => simp
  | cons p ps ih =>
    rw [List.foldl_cons, ih]
    by_cases h1 : IsLegalSegment p seg1 = true
    · by_cases h2 : seg2 = NULL_SEG
      · simp [h1, h2, List.filter_cons]
      · by_cases h3 : IsLegalSegment p seg2 = true
        · simp [h1, h2, h3, List.filter_cons]
        · simp [h1, h2, h3, List.filter_cons]
    · simp [h1, List.filter_cons]

theorem SegmentIntersections_eq_filter (pts : Points K) (seg1 seg2 : Segment K) :
    SegmentIntersections pts seg1 seg2
      = pts.filter
          (fun p => IsLegalSegment p seg1 && (decide (seg2 = NULL_SEG) || IsLegalSegment p seg2)) := by
  unfold SegmentIntersections
  cases pts with
  | nil => rfl
  | cons p ps =>
    rw [if_pos (by simp), SegmentIntersections_foldl]
    simp

theorem SegmentIntersections_singleton (q : vf2d K) (seg1 seg2 : Segment K) :
    SegmentIntersections [q] seg1 seg2
      = if (IsLegalSegment q seg1 && (decide (seg2 = NULL_SEG) || IsLegalSegment q seg2)) = true
        then [q] else [] := by
  rw [SegmentIntersections_eq_filter]
  by_cases h : (IsLegalSegment q seg1 && (decide (seg2 = NULL_SEG) || IsLegalSegment q seg2)) = true
  · rw [if_pos h]
    simp only [List.filter_cons, List.filter_nil, h, if_true]
  · rw [if_neg h]
    simp [List.filter_cons, h]

theorem IsBetweenF_fdiv (a b : K) :
    IsBetweenF (fdiv a b) 0 1 = true ↔ (b ≠ 0 ∧ 0 < a / b ∧ a / b < 1) := by
  by_cases hb : b = 0
  · simp [fdiv, hb, IsBetweenF]
  · simp [fdiv, hb, IsBetweenF, IsBetween]

theorem IsLegalSegment_iff (i : vf2d K) (s : Segment K) :
    IsLegalSegment i s = true ↔
      ((s.p2.x - s.p1.x ≠ 0 ∧ 0 < (i.x - s.p1.x) / (s.p2.x - s.p1.x)
          ∧ (i.x - s.p1.x) / (s.p2.x - s.p1.x) < 1)
        ∨ (s.p2.y - s.p1.y ≠ 0 ∧ 0 < (i.y - s.p1.y) / (s.p2.y - s.p1.y)
          ∧ (i.y - s.p1.y) / (s.p2.y - s.p1.y) < 1)) := by
  simp only [IsLegalSegment, Bool.or_eq_true, IsBetweenF_fdiv]

/-- On a segment with distinct endpoints, the points strictly inside pass
`IsLegalSegment`. -/
theorem IsLegalSegment_of_strictlyInside {q : vf2d K} {s : Segment K} (hne : s.p1 ≠ s.p2)
    (h : StrictlyInside q s) : IsLegalSegment q s = true := by
  obtain ⟨t, ht0, ht1, hx, hy⟩ := h
  rw [IsLegalSegment_iff]
  rcases (vf2d_ne_iff _ _).1 hne with hd | hd
  · left
    have hd0 : s.p2.x - s.p1.x ≠ 0 := fun h0 => hd (by linarith)
    have ht : (q.x - s.p1.x) / (s.p2.x - s.p1.x) = t := by
      rw [div_eq_iff hd0, hx]
      ring
    exact ⟨hd0, by rw [ht]; exact ht0, by rw [ht]; exact ht1⟩
  · right
    have hd0 : s.p2.y - s.p1.y ≠ 0 := fun h0 => hd (by linarith)
    have ht : (q.y - s.p1.y) / (s.p2.y - s.p1.y) = t := by
      rw [div_eq_iff hd0, hy]
      ring
    exact ⟨hd0, by rw [ht]; exact ht0, by rw [ht]; exact ht1⟩

/-- A point of the supporting line that passes `IsLegalSegment` is strictly
inside the segment. -/
theorem strictlyInside_of_IsLegalSegment {q : vf2d K} {s : Segment K}
    (hq : OnLine q s.AsLine) (h : IsLegalSegment q s = true) : StrictlyInside q s := by
  rw [IsLegalSegment_iff] at h
  simp only [OnLine, Segment.AsLine] at hq
  rcases h with ⟨hd, h0, h1⟩ | ⟨hd, h0, h1⟩
  · refine ⟨(q.x - s.p1.x) / (s.p2.x - s.p1.x), h0, h1, ?_, ?_⟩
    · field_simp
    · field_simp
      linear_combination (-1 : K) * hq
  · refine ⟨(q.y - s.p1.y) / (s.p2.y - s.p1.y), h0, h1, ?_, ?_⟩
    · field_simp
      linear_combination hq
    · field_simp

theorem IsLegalSegment_iff_strictlyInside {q : vf2d K} {s : Segment K} (hne : s.p1 ≠ s.p2)
    (hq : OnLine q s.AsLine) : IsLegalSegment q s = true ↔ StrictlyInside q s :=
  ⟨strictlyInside_of_IsLegalSegment hq, IsLegalSegment_of_strictlyInside hne⟩

theorem CircleVsStandardLine_of_ne (sqrt : K → K) (c : Circle K) (s : StandardForm K)
    (hN : (s.A * s.A) + (s.B * s.B) ≠ 0) (hD : discriminant c s ≠ 0) :
    CircleVsStandardLine sqrt c s =
      [ (vf2d.mk (((s.A * s.C) + s.B * sqrt (discriminant c s)) / ((s.A * s.A) + (s.B * s.B)))
                 (((s.B * s.C) - s.A * sqrt (discriminant c s)) / ((s.A * s.A) + (s.B * s.B)))).add
          c.pos,
        (vf2d.mk (((s.A * s.C) - s.B * sqrt (discriminant c s)) / ((s.A * s.A) + (s.B * s.B)))
                 (((s.B * s.C) + s.A * sqrt (discriminant c s)) / ((s.A * s.A) + (s.B * s.B)))).add
          c.pos ] := by
  have hD0 : (c.radius * c.radius) * ((s.A * s.A) + (s.B * s.B)) - (s.C * s.C) ≠ 0 := hD
  simp only [CircleVsStandardLine, discriminant, if_neg hN, if_neg hD0]

theorem CircleVsStandardLine_of_norm_zero (sqrt : K → K) (c : Circle K) (s : StandardForm K)
    (hN : (s.A * s.A) + (s.B * s.B) = 0) : CircleVsStandardLine sqrt c s = [] := by
  simp only [CircleVsStandardLine, hN, if_true]

theorem CircleVsStandardLine_of_disc_zero (sqrt : K → K) (c : Circle K) (s : StandardForm K)
    (hD : discriminant c s = 0) : CircleVsStandardLine sqrt c s = [] := by
  have hD0 : (c.radius * c.radius) * ((s.A * s.A) + (s.B * s.B)) - (s.C * s.C) = 0 := hD
  by_cases hN : (s.A * s.A) + (s.B * s.B) = 0
  · exact CircleVsStandardLine_of_norm_zero sqrt c s hN
  · simp only [CircleVsStandardLine, if_neg hN, hD0, if_true]

/-- The algebra of the solver: with an exact square root `S` of the discriminant
`r^2 (A^2 + B^2) - C^2`, both candidate points satisfy the line equation in the
local space, are at squared distance `r^2` from the centre, and differ. -/
theorem solver_algebra (A B C r S cx cy : K) (hN : A * A + B * B ≠ 0)
    (hS : S * S = r * r * (A * A + B * B) - C * C) (hS0 : S ≠ 0) :
    (A * (((A * C + B * S) / (A * A + B * B) + cx) - cx)
        + B * (((B * C - A * S) / (A * A + B * B) + cy) - cy) = C)
      ∧ (A * (((A * C - B * S) / (A * A + B * B) + cx) - cx)
        + B * (((B * C + A * S) / (A * A + B * B) + cy) - cy) = C)
      ∧ ((((A * C + B * S) / (A * A + B * B) + cx) - cx)
            * (((A * C + B * S) / (A * A + B * B) + cx) - cx)
          + (((B * C - A * S) / (A * A + B * B) + cy) - cy)
            * (((B * C - A * S) / (A * A + B * B) + cy) - cy) = r * r)
      ∧ ((((A * C - B * S) / (A * A + B * B) + cx) - cx)
            * (((A * C - B * S) / (A * A + B * B) + cx) - cx)
          + (((B * C + A * S) / (A * A + B * B) + cy) - cy)
            * (((B * C + A * S) / (A * A + B * B) + cy) - cy) = r * r)
      ∧ ¬ ((A * C + B * S) / (A * A + B * B) + cx = (A * C - B * S) / (A * A + B * B) + cx
          ∧ (B * C - A * S) / (A * A + B * B) + cy = (B * C + A * S) / (A * A + B * B) + cy) := by
  refine ⟨?_, ?_, ?_, ?_, ?_⟩
  · field_simp
    ring
  · field_simp
    ring
  · field_simp
    linear_combination (A * A + B * B) * hS
  · field_simp
    linear_combination (A * A + B * B) * hS
  · rintro ⟨hx, hy⟩
    have hx1 : (A * C + B * S) / (A * A + B * B) = (A * C - B * S) / (A * A + B * B) :=
      add_right_cancel hx
    have hy1 : (B * C - A * S) / (A * A + B * B) = (B * C + A * S) / (A * A + B * B) :=
      add_right_cancel hy
    rw [div_left_inj' hN] at hx1 hy1
    have hB : B * S = 0 := by linarith
    have hA : A * S = 0 := by linarith
    have hA0 : A = 0 := by
      rcases mul_eq_zero.1 hA with h | h
      · exact h
      · exact absurd h hS0
    have hB0 : B = 0 := by
      rcases mul_eq_zero.1 hB with h | h
      · exact h
      · exact absurd h hS0
    apply hN
    rw [hA0, hB0]
    ring

theorem norm_ne_zero_of_ne (l : Line K) (c : Circle K) (hne : l.p1 ≠ l.p2) :
    (GetStandardForm (localLine l c)).A * (GetStandardForm (localLine l c)).A
      + (GetStandardForm (localLine l c)).B * (GetStandardForm (localLine l c)).B ≠ 0 := by
  intro h
  simp only [GetStandardForm, localLine, vf2d.sub] at h
  have hA : l.p2.y - c.pos.y - (l.p1.y - c.pos.y) = 0 := by
    nlinarith [mul_self_nonneg (l.p2.y - c.pos.y - (l.p1.y - c.pos.y)),
      mul_self_nonneg (l.p1.x - c.pos.x - (l.p2.x - c.pos.x))]
  have hB : l.p1.x - c.pos.x - (l.p2.x - c.pos.x) = 0 := by
    nlinarith [mul_self_nonneg (l.p2.y - c.pos.y - (l.p1.y - c.pos.y)),
      mul_self_nonneg (l.p1.x - c.pos.x - (l.p2.x - c.pos.x))]
  apply hne
  rw [← not_ne_iff, vf2d_ne_iff]
  push_neg
  constructor <;> linarith

/-- Membership in the line of `l`, from the line equation in the local space of `c`. -/
theorem onLine_of_local_equation (l : Line K) (c : Circle K) (q : vf2d K)
    (h : (GetStandardForm (localLine l c)).A * (q.x - c.pos.x)
        + (GetStandardForm (localLine l c)).B * (q.y - c.pos.y)
        = (GetStandardForm (localLine l c)).C) : OnLine q l := by
  simp only [GetStandardForm, localLine, vf2d.sub] at h
  simp only [OnLine]
  linear_combination h

/-- The two points of the solver when `A^2 + B^2` and the discriminant are not
zero and `sqrt` is exact at the discriminant. -/
theorem CircleVsStandardLine_points (sqrt : K → K) (c : Circle K) (s : StandardForm K)
    (hN : (s.A * s.A) + (s.B * s.B) ≠ 0) (hD : discriminant c s ≠ 0)
    (hsqrt : sqrt (discriminant c s) * sqrt (discriminant c s) = discriminant c s) :
    ∃ q1 q2, CircleVsStandardLine sqrt c s = [q1, q2] ∧ q1 ≠ q2
      ∧ s.A * (q1.x - c.pos.x) + s.B * (q1.y - c.pos.y) = s.C
      ∧ s.A * (q2.x - c.pos.x) + s.B * (q2.y - c.pos.y) = s.C
      ∧ sqDist q1 c.pos = c.radius * c.radius ∧ sqDist q2 c.pos = c.radius * c.radius := by
  have hS0 : sqrt (discriminant c s) ≠ 0 := by
    intro h0
    apply hD
    rw [← hsqrt, h0, mul_zero]
  obtain ⟨e1, e2, d1, d2, hdis⟩ :=
    solver_algebra s.A s.B s.C c.radius (sqrt (discriminant c s)) c.pos.x c.pos.y hN hsqrt hS0
  refine ⟨_, _, CircleVsStandardLine_of_ne sqrt c s hN hD, ?_, e1, e2, d1, d2⟩
  intro heq
  apply hdis
  simp only [vf2d.add, vf2d.mk.injEq] at heq
  exact heq

/-- The two points `LineVsCircle` returns when the line has distinct defining
points, the discriminant is not zero and `sqrt` is exact at it. -/
theorem LineVsCircle_points (sqrt : K → K) (l : Line K) (c : Circle K) (hne : l.p1 ≠ l.p2)
    (hD : discriminant c (GetStandardForm (localLine l c)) ≠ 0)
    (hsqrt : sqrt (discriminant c (GetStandardForm (localLine l c)))
        * sqrt (discriminant c (GetStandardForm (localLine l c)))
        = discriminant c (GetStandardForm (localLine l c))) :
    ∃ q1 q2, LineVsCircle sqrt l c = [q1, q2] ∧ q1 ≠ q2
      ∧ OnLine q1 l ∧ OnLine q2 l
      ∧ sqDist q1 c.pos = c.radius * c.radius ∧ sqDist q2 c.pos = c.radius * c.radius := by
  obtain ⟨q1, q2, hl, hq, e1, e2, d1, d2⟩ :=
    CircleVsStandardLine_points sqrt c _ (norm_ne_zero_of_ne l c hne) hD hsqrt
  exact ⟨q1, q2, hl, hq, onLine_of_local_equation l c q1 e1, onLine_of_local_equation l c q2 e2,
    d1, d2⟩

theorem CircleVsCircle_eq (sqrt : K → K) (c1 c2 : Circle K) :
    CircleVsCircle sqrt c1 c2 = CircleVsStandardLine sqrt c1 (radicalLine c1 c2) := rfl

theorem radicalLine_norm (c1 c2 : Circle K) :
    (radicalLine c1 c2).A * (radicalLine c1 c2).A + (radicalLine c1 c2).B * (radicalLine c1 c2).B
      = 4 * sqDist c1.pos c2.pos := by
  simp only [radicalLine, vf2d.sub, sqDist]
  ring

theorem radicalLine_discriminant (c1 c2 : Circle K) :
    discriminant c1 (radicalLine c1 c2)
      = ((c1.radius + c2.radius) * (c1.radius + c2.radius) - sqDist c1.pos c2.pos)
        * (sqDist c1.pos c2.pos - (c1.radius - c2.radius) * (c1.radius - c2.radius)) := by
  simp only [discriminant, radicalLine, vf2d.sub, sqDist]
  ring

/-- A point of the circle `c1` that satisfies the equation of the radical line
lies on the circle `c2`. -/
theorem sqDist_of_radicalLine (c1 c2 : Circle K) (q : vf2d K)
    (e : (radicalLine c1 c2).A * (q.x - c1.pos.x) + (radicalLine c1 c2).B * (q.y - c1.pos.y)
        = (radicalLine c1 c2).C)
    (d : sqDist q c1.pos = c1.radius * c1.radius) :
    sqDist q c2.pos = c2.radius * c2.radius := by
  simp only [radicalLine, vf2d.sub] at e
  simp only [sqDist] at d ⊢
  linear_combination d - e

/-- The square root of the rationals at a perfect square. -/
theorem rat_sqrt_sq (q : ℚ) (hq : 0 ≤ q) : Rat.sqrt (q * q) = q := by
  rw [Rat.sqrt_eq, abs_of_nonneg hq]

/-- The loop shared by the polygon functions: every block is put in front of
the accumulated result. -/
theorem foldl_prepend {α : Type} (g : Nat → List α) (l : List Nat) (acc : List α) :
    l.foldl (fun result i => g i ++ result) acc = l.reverse.flatMap g ++ acc := by
  induction l generalizing acc with
  | nil => simp
  | cons i l ih =>
    rw [List.foldl_cons, ih, List.reverse_cons, List.flatMap_append]
    simp

theorem PointAfter_eq (p : Polygon K) (i : Nat) (hi : i < p.points.length) :
    p.PointAfter i = p.points.getD ((i + 1) % p.points.length) ⟨0, 0⟩ := by
  unfold Polygon.PointAfter
  by_cases h : i < p.points.length - 1
  · rw [if_pos h, Nat.mod_eq_of_lt (by omega)]
  · have hn : i + 1 = p.points.length := by omega
    rw [if_neg h, hn, Nat.mod_self]

/-- The loop of a polygon function visits the edges of `edgesSpec`, last edge
first. -/
theorem polygon_loop_eq (p : Polygon K) (f : Segment K → Points K) :
    (List.range p.points.length).foldl
        (fun result i => f ⟨p.points.getD i ⟨0, 0⟩, p.PointAfter i⟩ ++ result) []
      = (edgesSpec p).reverse.flatMap f := by
  rw [foldl_prepend (fun i => f ⟨p.points.getD i ⟨0, 0⟩, p.PointAfter i⟩), List.append_nil,
    edgesSpec, ← List.map_reverse, List.flatMap_map]
  simp only [List.flatMap]
  congr 1
  apply List.map_congr_left
  intro i hi
  rw [List.mem_reverse, List.mem_range] at hi
  rw [PointAfter_eq p i hi]

theorem LineVsPolygon_eq (l : Line K) (p : Polygon K) :
    LineVsPolygon l p = (edgesSpec p).reverse.flatMap (LineVsSegment l) :=
  polygon_loop_eq p (LineVsSegment l)

theorem SegmentVsCircle_eq_filter (sqrt : K → K) (s : Segment K) (c : Circle K) :
    SegmentVsCircle sqrt s c
      = (LineVsCircle sqrt s.AsLine c).filter (fun q => IsLegalSegment q s) := by
  rw [SegmentVsCircle, SegmentIntersections_eq_filter]
  simp

theorem sqDist_swap (a b : vf2d K) : sqDist b a = sqDist a b := by
  simp only [sqDist]
  ring

theorem radicalLine_discriminant_swap (c1 c2 : Circle K) :
    discriminant c2 (radicalLine c2 c1) = discriminant c1 (radicalLine c1 c2) := by
  rw [radicalLine_discriminant, radicalLine_discriminant, sqDist_swap c1.pos c2.pos]
  ring

/-- The algebra behind `CircleVsCircle_swap`: seen from the second circle the
radical line has the opposite normal, and the two solver points trade places. -/
theorem swap_algebra (A B C S x y : K) (hN : A * A + B * B ≠ 0) :
    ((-A * ((A * A + B * B) / 2 - C) + -B * S) / (A * A + B * B) + (x + A / 2)
        = (A * C - B * S) / (A * A + B * B) + x)
      ∧ ((-B * ((A * A + B * B) / 2 - C) - -A * S) / (A * A + B * B) + (y + B / 2)
        = (B * C + A * S) / (A * A + B * B) + y)
      ∧ ((-A * ((A * A + B * B) / 2 - C) - -B * S) / (A * A + B * B) + (x + A / 2)
        = (A * C + B * S) / (A * A + B * B) + x)
      ∧ ((-B * ((A * A + B * B) / 2 - C) + -A * S) / (A * A + B * B) + (y + B / 2)
        = (B * C - A * S) / (A * A + B * B) + y) := by
  refine ⟨?_, ?_, ?_, ?_⟩
  · field_simp
    ring
  · field_simp
    ring
  · field_simp
    ring
  · field_simp
    ring

/-- Swapping the two circles reverses the result of `CircleVsCircle`. -/
theorem CircleVsCircle_swap (sqrt : K → K) (c1 c2 : Circle K) :
    CircleVsCircle sqrt c2 c1 = (CircleVsCircle sqrt c1 c2).reverse := by
  rw [CircleVsCircle_eq, CircleVsCircle_eq]
  have hNeq : (radicalLine c2 c1).A * (radicalLine c2 c1).A
      + (radicalLine c2 c1).B * (radicalLine c2 c1).B
      = (radicalLine c1 c2).A * (radicalLine c1 c2).A
        + (radicalLine c1 c2).B * (radicalLine c1 c2).B := by
    rw [radicalLine_norm, radicalLine_norm, sqDist_swap c1.pos c2.pos]
  have hDeq := radicalLine_discriminant_swap c1 c2
  by_cases hN : (radicalLine c1 c2).A * (radicalLine c1 c2).A
      + (radicalLine c1 c2).B * (radicalLine c1 c2).B = 0
  · rw [CircleVsStandardLine_of_norm_zero sqrt c1 _ hN,
      CircleVsStandardLine_of_norm_zero sqrt c2 _ (hNeq.trans hN)]
    rfl
  · by_cases hD : discriminant c1 (radicalLine c1 c2) = 0
    · rw [CircleVsStandardLine_of_disc_zero sqrt c1 _ hD,
        CircleVsStandardLine_of_disc_zero sqrt c2 _ (hDeq.trans hD)]
      rfl
    · have hN2 : (radicalLine c2 c1).A * (radicalLine c2 c1).A
          + (radicalLine c2 c1).B * (radicalLine c2 c1).B ≠ 0 := by
        rw [hNeq]
        exact hN
      have hD2 : discriminant c2 (radicalLine c2 c1) ≠ 0 := by
        rw [hDeq]
        exact hD
      have hA : (radicalLine c2 c1).A = -(radicalLine c1 c2).A := by
        simp only [radicalLine, vf2d.sub]
        ring
      have hB : (radicalLine c2 c1).B = -(radicalLine c1 c2).B := by
        simp only [radicalLine, vf2d.sub]
        ring
      have hC : (radicalLine c2 c1).C
          = ((radicalLine c1 c2).A * (radicalLine c1 c2).A
              + (radicalLine c1 c2).B * (radicalLine c1 c2).B) / 2 - (radicalLine c1 c2).C := by
        simp only [radicalLine, vf2d.sub]
        ring
      have hx : c2.pos.x = c1.pos.x + (radicalLine c1 c2).A / 2 := by
        simp only [radicalLine, vf2d.sub]
        ring
      have hy : c2.pos.y = c1.pos.y + (radicalLine c1 c2).B / 2 := by
        simp only [radicalLine, vf2d.sub]
        ring
      obtain ⟨a1, a2, a3, a4⟩ :=
        swap_algebra (radicalLine c1 c2).A (radicalLine c1 c2).B (radicalLine c1 c2).C
          (sqrt (discriminant c1 (radicalLine c1 c2))) c1.pos.x c1.pos.y hN
      rw [CircleVsStandardLine_of_ne sqrt c1 _ hN hD, CircleVsStandardLine_of_ne sqrt c2 _ hN2 hD2,
        hDeq, hNeq, hA, hB, hC]
      simp only [List.reverse_cons, List.reverse_nil, List.nil_append, List.singleton_append,
        List.cons.injEq, and_true, vf2d.add, vf2d.mk.injEq]
      refine ⟨⟨?_, ?_⟩, ⟨?_, ?_⟩⟩
      · rw [hx]
        exact a1
      · rw [hy]
        exact a2
      · rw [hx]
        exact a3
      · rw [hy]
        exact a4

theorem lt_or_gt_of_sq_gt (S : K) (hS : 2500 < S * S) : S < -50 ∨ 50 < S := by
  by_contra h
  push_neg at h
  nlinarith [h.1, h.2]

/-- Two candidates that both fail the membership test leave nothing. -/
theorem filter_two_nil {α : Type} (P Q : Prop) [Decidable P] [Decidable Q] (a b : α)
    (hP : ¬ P) (hQ : ¬ Q) :
    (if P then a :: (if Q then [b] else []) else (if Q then [b] else [])) = [] := by
  rw [if_neg hP, if_neg hQ]

theorem CircleVsPolygon_eq (sqrt : K → K) (c : Circle K) (p : Polygon K) :
    CircleVsPolygon sqrt c p = (edgesSpec p).reverse.flatMap (fun e => SegmentVsCircle sqrt e c) :=
  polygon_loop_eq p (fun e => SegmentVsCircle sqrt e c)

theorem scenario_rect_edges :
    edgesSpec (RectAABB.AsPolygon (⟨⟨0, 0⟩, ⟨10, 10⟩⟩ : RectAABB K))
      = [⟨⟨0, 0⟩, ⟨10, 0⟩⟩, ⟨⟨10, 0⟩, ⟨10, 10⟩⟩, ⟨⟨10, 10⟩, ⟨0, 10⟩⟩, ⟨⟨0, 10⟩, ⟨0, 0⟩⟩] := by
  norm_num [edgesSpec, RectAABB.AsPolygon, vf2d.add, List.range_succ]

theorem scenario_edge0 (sqrt : K → K) (hS : 2500 < sqrt 37500 * sqrt 37500) :
    SegmentVsCircle sqrt (⟨⟨0, 0⟩, ⟨10, 0⟩⟩ : Segment K) ⟨⟨5, 5⟩, 20⟩ = [] := by
  have hc := lt_or_gt_of_sq_gt _ hS
  rw [SegmentVsCircle_eq_filter]
  norm_num [LineVsCircle, CircleVsStandardLine, GetStandardForm, Segment.AsLine, vf2d.sub,
    vf2d.add, IsLegalSegment_iff, List.filter_cons]
  apply filter_two_nil
  · rintro ⟨a, b⟩
    rcases hc with h | h <;> linarith
  · rintro ⟨a, b⟩
    rcases hc with h | h <;> linarith

theorem scenario_edge1 (sqrt : K → K) (hS : 2500 < sqrt 37500 * sqrt 37500) :
    SegmentVsCircle sqrt (⟨⟨10, 0⟩, ⟨10, 10⟩⟩ : Segment K) ⟨⟨5, 5⟩, 20⟩ = [] := by
  have hc := lt_or_gt_of_sq_gt _ hS
  rw [SegmentVsCircle_eq_filter]
  norm_num [LineVsCircle, CircleVsStandardLine, GetStandardForm, Segment.AsLine, vf2d.sub,
    vf2d.add, IsLegalSegment_iff, List.filter_cons]
  apply filter_two_nil
  · rintro ⟨a, b⟩
    rcases hc with h | h <;> linarith
  · rintro ⟨a, b⟩
    rcases hc with h | h <;> linarith

theorem scenario_edge2 (sqrt : K → K) (hS : 2500 < sqrt 37500 * sqrt 37500) :
    SegmentVsCircle sqrt (⟨⟨10, 10⟩, ⟨0, 10⟩⟩ : Segment K) ⟨⟨5, 5⟩, 20⟩ = [] := by
  have hc := lt_or_gt_of_sq_gt _ hS
  rw [SegmentVsCircle_eq_filter]
  norm_num [LineVsCircle, CircleVsStandardLine, GetStandardForm, Segment.AsLine, vf2d.sub,
    vf2d.add, IsLegalSegment_iff, List.filter_cons]
  apply filter_two_nil
  · rintro ⟨a, b⟩
    rcases hc with h | h <;> linarith
  · rintro ⟨a, b⟩
    rcases hc with h | h <;> linarith

theorem scenario_edge3 (sqrt : K → K) (hS : 2500 < sqrt 37500 * sqrt 37500) :
    SegmentVsCircle sqrt (⟨⟨0, 10⟩, ⟨0, 0⟩⟩ : Segment K) ⟨⟨5, 5⟩, 20⟩ = [] := by
  have hc := lt_or_gt_of_sq_gt _ hS
  rw [SegmentVsCircle_eq_filter]
  norm_num [LineVsCircle, CircleVsStandardLine, GetStandardForm, Segment.AsLine, vf2d.sub,
    vf2d.add, IsLegalSegment_iff, List.filter_cons]
  apply filter_two_nil
  · rintro ⟨a, b⟩
    rcases hc with h | h <;> linarith
  · rintro ⟨a, b⟩
    rcases hc with h | h <;> linarith

/-- Scenario 4 of the specification in the model: the circle of radius `20`
around `(5,5)` contains the rectangle, every candidate is outside its edge. -/
theorem scenario_circle_rect_nil (sqrt : K → K) (hS : 2500 < sqrt 37500 * sqrt 37500) :
    CircleVsRectAABB sqrt (⟨⟨5, 5⟩, 20⟩ : Circle K) ⟨⟨0, 0⟩, ⟨10, 10⟩⟩ = [] := by
  rw [CircleVsRectAABB, CircleVsPolygon_eq, scenario_rect_edges]
  simp only [List.reverse_cons, List.reverse_nil, List.nil_append, List.cons_append,
    List.flatMap_cons, List.flatMap_nil, scenario_edge0 sqrt hS, scenario_edge1 sqrt hS,
    scenario_edge2 sqrt hS, scenario_edge3 sqrt hS, List.append_nil]

theorem PointInCircle_iff (sqrt : K → K) (p : vf2d K) (c : Circle K) :
    PointInCircle sqrt p c = true ↔ sqrt (sqDist c.pos p) < c.radius := by
  simp only [PointInCircle, vf2d.mag, vf2d.sub, sqDist, decide_eq_true_eq]

theorem PointInRect_iff (p : vf2d K) (r : RectAABB K) :
    PointInRect p r = true ↔
      (r.pos.x < p.x ∧ p.x < r.pos.x + r.size.x ∧ r.pos.y < p.y ∧ p.y < r.pos.y + r.size.y) := by
  simp only [PointInRect, Bool.and_eq_true, decide_eq_true_eq, gt_iff_lt]
  tauto

theorem PointInRect_eq_false_of_on_boundary (p : vf2d K) (r : RectAABB K)
    (h : p.x = r.pos.x ∨ p.x = r.pos.x + r.size.x ∨ p.y = r.pos.y ∨ p.y = r.pos.y + r.size.y) :
    PointInRect p r = false := by
  rw [← Bool.not_eq_true, PointInRect_iff]
  rintro ⟨h1, h2, h3, h4⟩
  rcases h with h | h | h | h
  · exact absurd h (ne_of_gt h1)
  · exact absurd h (ne_of_lt h2)
  · exact absurd h (ne_of_gt h3)
  · exact absurd h (ne_of_lt h4)

theorem IsLegalSegment_NULL_SEG (q : vf2d K) : IsLegalSegment q (NULL_SEG : Segment K) = false := by
  rw [← Bool.not_eq_true, IsLegalSegment_iff]
  simp [NULL_SEG]

/-! ### The exact reading of the claims that depend on float rounding -/

/-- Exact reading: two lines with distinct defining points and non-parallel
directions make `LineVsLine` return exactly one point, and that point is collinear
with the defining points of each of the two lines. -/
theorem LineVsLine_single_point_on_both (l1 l2 : Line K)
    (_h1 : l1.p1 ≠ l1.p2) (_h2 : l2.p1 ≠ l2.p2) (hnp : ¬ Parallel l1 l2) :
    ∃ q, LineVsLine l1 l2 = [q] ∧ OnLine q l1 ∧ OnLine q l2 := by
  have h : cross l1 l2 ≠ 0 := hnp
  refine ⟨_, LineVsLine_of_cross_ne_zero l1 l2 h, ?_⟩
  exact LineVsLine_point_onLine l1 l2 h _ (by rw [LineVsLine_of_cross_ne_zero l1 l2 h]; simp)

/-- Exact reading: for two circles with non-negative radii whose centres are at a
distance `d` with `|r1 - r2| < d < r1 + r2` (stated on the squares),
`CircleVsCircle` returns exactly two distinct points, each at squared distance
`r1^2` from `c1.pos` and `r2^2` from `c2.pos`, provided `sqrt` is exact at the
discriminant. -/
theorem CircleVsCircle_two_points (sqrt : K → K) (c1 c2 : Circle K)
    (_hr1 : 0 ≤ c1.radius) (_hr2 : 0 ≤ c2.radius)
    (hlo : (c1.radius - c2.radius) * (c1.radius - c2.radius) < sqDist c1.pos c2.pos)
    (hhi : sqDist c1.pos c2.pos < (c1.radius + c2.radius) * (c1.radius + c2.radius))
    (hsqrt : sqrt (discriminant c1 (radicalLine c1 c2)) * sqrt (discriminant c1 (radicalLine c1 c2))
        = discriminant c1 (radicalLine c1 c2)) :
    ∃ q1 q2, CircleVsCircle sqrt c1 c2 = [q1, q2] ∧ q1 ≠ q2
      ∧ sqDist q1 c1.pos = c1.radius * c1.radius ∧ sqDist q1 c2.pos = c2.radius * c2.radius
      ∧ sqDist q2 c1.pos = c1.radius * c1.radius ∧ sqDist q2 c2.pos = c2.radius * c2.radius := by
  have hd : 0 < sqDist c1.pos c2.pos :=
    lt_of_le_of_lt (mul_self_nonneg (c1.radius - c2.radius)) hlo
  have hN : (radicalLine c1 c2).A * (radicalLine c1 c2).A
      + (radicalLine c1 c2).B * (radicalLine c1 c2).B ≠ 0 := by
    rw [radicalLine_norm]
    exact ne_of_gt (by linarith)
  have hD : discriminant c1 (radicalLine c1 c2) ≠ 0 := by
    rw [radicalLine_discriminant]
    exact ne_of_gt (mul_pos (by linarith) (by linarith))
  obtain ⟨q1, q2, hl, hq, e1, e2, d1, d2⟩ :=
    CircleVsStandardLine_points sqrt c1 (radicalLine c1 c2) hN hD hsqrt
  exact ⟨q1, q2, by rw [CircleVsCircle_eq]; exact hl, hq, d1,
    sqDist_of_radicalLine c1 c2 q1 e1 d1, d2, sqDist_of_radicalLine c1 c2 q2 e2 d2⟩

/-- Exact reading: with `sqrt` exact and non-negative at the squared distance,
`PointInCircle p c` holds iff the distance from `p` to `c.pos` is strictly below
`c.radius`, and is false when the two are equal; `PointInRect p r` holds iff both
coordinates are strictly between the near and the far edge, and is false on the
four edge lines and at the four vertices of `r.AsPolygon`. -/
theorem containment_excludes_boundary (sqrt : K → K) (p : vf2d K) (c : Circle K)
    (r : RectAABB K)
    (hs0 : 0 ≤ sqrt (sqDist c.pos p))
    (hs : sqrt (sqDist c.pos p) * sqrt (sqDist c.pos p) = sqDist c.pos p) :
    (PointInCircle sqrt p c = true ↔ sqrt (sqDist c.pos p) < c.radius)
      ∧ (PointInCircle sqrt p c = true ↔
          (0 < c.radius ∧ sqDist p c.pos < c.radius * c.radius))
      ∧ (sqrt (sqDist c.pos p) = c.radius → PointInCircle sqrt p c = false)
      ∧ (PointInRect p r = true ↔
          (r.pos.x < p.x ∧ p.x < r.pos.x + r.size.x ∧ r.pos.y < p.y ∧ p.y < r.pos.y + r.size.y))
      ∧ ((p.x = r.pos.x ∨ p.x = r.pos.x + r.size.x ∨ p.y = r.pos.y ∨ p.y = r.pos.y + r.size.y) →
          PointInRect p r = false)
      ∧ (∀ v ∈ r.AsPolygon.points, PointInRect v r = false) := by
  refine ⟨PointInCircle_iff sqrt p c, ?_, ?_, PointInRect_iff p r,
    PointInRect_eq_false_of_on_boundary p r, ?_⟩
  · rw [PointInCircle_iff, sqDist_swap c.pos p]
    constructor
    · intro h
      refine ⟨lt_of_le_of_lt hs0 h, ?_⟩
      calc sqDist c.pos p = sqrt (sqDist c.pos p) * sqrt (sqDist c.pos p) := hs.symm
        _ < c.radius * c.radius := mul_lt_mul'' h h hs0 hs0
    · rintro ⟨hr, h⟩
      by_contra hcon
      push_neg at hcon
      have hle := mul_le_mul hcon hcon (le_of_lt hr) hs0
      rw [hs] at hle
      exact absurd h (not_lt.2 hle)
  · intro h
    rw [← Bool.not_eq_true, PointInCircle_iff, h]
    exact lt_irrefl _
  · intro v hv
    apply PointInRect_eq_false_of_on_boundary
    simp only [RectAABB.AsPolygon, vf2d.add, List.mem_cons, List.mem_singleton,
      List.not_mem_nil, or_false] at hv
    rcases hv with rfl | rfl | rfl | rfl
    · exact Or.inl rfl
    · exact Or.inr (Or.inl rfl)
    · exact Or.inr (Or.inl rfl)
    · exact Or.inl rfl

theorem GetStandardFormR_id (l : Line K) : GetStandardFormR id l = GetStandardForm l := rfl

theorem IsLegalSegmentR_id (i : vf2d K) (s : Segment K) :
    IsLegalSegmentR id i s = IsLegalSegment i s := rfl

theorem SegmentIntersectionsR_id (pts : Points K) (seg1 seg2 : Segment K) :
    SegmentIntersectionsR id pts seg1 seg2 = SegmentIntersections pts seg1 seg2 := rfl

theorem LineVsLineR_id (l1 l2 : Line K) : LineVsLineR id l1 l2 = LineVsLine l1 l2 := rfl

theorem CircleVsStandardLineR_id (sqrt : K → K) (c : Circle K) (s : StandardForm K) :
    CircleVsStandardLineR id sqrt c s = CircleVsStandardLine sqrt c s := rfl

theorem LineVsCircleR_id (sqrt : K → K) (l : Line K) (c : Circle K) :
    LineVsCircleR id sqrt l c = LineVsCircle sqrt l c := rfl

theorem SegmentVsSegmentR_id (s1 s2 : Segment K) :
    SegmentVsSegmentR id s1 s2 = SegmentVsSegment s1 s2 := rfl

theorem SegmentVsCircleR_id (sqrt : K → K) (s : Segment K) (c : Circle K) :
    SegmentVsCircleR id sqrt s c = SegmentVsCircle sqrt s c := rfl

theorem SegmentVsPolygonR_id (s : Segment K) (p : Polygon K) :
    SegmentVsPolygonR id s p = SegmentVsPolygon s p := rfl

theorem CircleVsCircleR_id (sqrt : K → K) (c1 c2 : Circle K) :
    CircleVsCircleR id sqrt c1 c2 = CircleVsCircle sqrt c1 c2 := rfl

theorem PolygonVsPolygonR_id (p1 p2 : Polygon K) :
    PolygonVsPolygonR id p1 p2 = PolygonVsPolygon p1 p2 := rfl

theorem PointInCircleR_id (sqrt : K → K) (p : vf2d K) (c : Circle K) :
    PointInCircleR id sqrt p c = PointInCircle sqrt p c := rfl

theorem PointInRectR_id (p : vf2d K) (r : RectAABB K) :
    PointInRectR id p r = PointInRect p r := rfl

theorem AsPolygonR_id (r : RectAABB K) : r.AsPolygonR id = r.AsPolygon := rfl

/-! ### The float reading where no operation rounds -/

theorem GetStandardFormR_eq (fl : K → K) (l : Line K)
    (h : ∀ x ∈ GetStandardForm.ops l, fl x = x) :
    GetStandardFormR fl l = GetStandardForm l := by
  simp only [GetStandardForm.ops, List.forall_mem_cons, List.not_mem_nil, IsEmpty.forall_iff,
    implies_true, and_true] at h
  obtain ⟨h1, h2, h3, h4, h5⟩ := h
  simp only [GetStandardFormR, GetStandardForm, h1, h2, h3, h4, h5]

theorem forall_mem_append_left {α : Type} {P : α → Prop} {xs ys : List α}
    (h : ∀ x ∈ xs ++ ys, P x) : ∀ x ∈ xs, P x :=
  fun x hx => h x (List.mem_append_left _ hx)

theorem forall_mem_append_right {α : Type} {P : α → Prop} {xs ys : List α}
    (h : ∀ x ∈ xs ++ ys, P x) : ∀ x ∈ ys, P x :=
  fun x hx => h x (List.mem_append_right _ hx)

/-- The determinant that `LineVsLine` computes in the float reading. -/
theorem fDenomR_eq (fl : K → K) (l1 l2 : Line K) (h : ∀ x ∈ fDenom.ops l1 l2, fl x = x) :
    GetStandardFormR fl l1 = GetStandardForm l1 ∧ GetStandardFormR fl l2 = GetStandardForm l2
      ∧ fl (fl ((GetStandardFormR fl l1).A * (GetStandardFormR fl l2).B)
            - fl ((GetStandardFormR fl l2).A * (GetStandardFormR fl l1).B))
          = (GetStandardForm l1).A * (GetStandardForm l2).B
            - (GetStandardForm l2).A * (GetStandardForm l1).B := by
  unfold fDenom.ops at h
  have g1 := GetStandardFormR_eq fl l1 (forall_mem_append_left (forall_mem_append_left h))
  have g2 := GetStandardFormR_eq fl l2 (forall_mem_append_right (forall_mem_append_left h))
  have h3 := forall_mem_append_right h
  simp only [List.forall_mem_cons, List.not_mem_nil, IsEmpty.forall_iff, implies_true,
    and_true] at h3
  obtain ⟨e1, e2, e3⟩ := h3
  refine ⟨g1, g2, ?_⟩
  rw [g1, g2, e1, e2, e3]

theorem LineVsLineR_eq (fl : K → K) (l1 l2 : Line K)
    (h : ∀ x ∈ LineVsLine.ops l1 l2, fl x = x) :
    LineVsLineR fl l1 l2 = LineVsLine l1 l2 := by
  unfold LineVsLine.ops at h
  obtain ⟨g1, g2, g3⟩ := fDenomR_eq fl l1 l2 (forall_mem_append_left h)
  have h2 := forall_mem_append_right h
  by_cases hd : (GetStandardForm l1).A * (GetStandardForm l2).B
      - (GetStandardForm l2).A * (GetStandardForm l1).B = 0
  · simp only [LineVsLineR, LineVsLine, g3, hd, if_true]
  · rw [if_neg hd] at h2
    simp only [List.forall_mem_cons, List.not_mem_nil, IsEmpty.forall_iff, implies_true,
      and_true] at h2
    obtain ⟨e1, e2, e3, e4, e5, e6, e7, e8⟩ := h2
    simp only [LineVsLineR, LineVsLine, g3, hd, if_false]
    rw [g1, g2, e1, e2, e3, e4, e5, e6, e7, e8]

theorem CircleVsStandardLineR_eq (fl : K → K) (sqrt : K → K) (c : Circle K) (s : StandardForm K)
    (h : ∀ x ∈ CircleVsStandardLine.ops sqrt c s, fl x = x) :
    CircleVsStandardLineR fl sqrt c s = CircleVsStandardLine sqrt c s := by
  unfold CircleVsStandardLine.ops at h
  have h1 := forall_mem_append_left h
  have h2 := forall_mem_append_right h
  simp only [List.forall_mem_cons, List.not_mem_nil, IsEmpty.forall_iff, implies_true,
    and_true] at h1
  obtain ⟨a1, a2, a3⟩ := h1
  have hfN : fl (fl (s.A * s.A) + fl (s.B * s.B)) = (s.A * s.A) + (s.B * s.B) := by
    rw [a1, a2, a3]
  by_cases hN : (s.A * s.A) + (s.B * s.B) = 0
  · simp only [CircleVsStandardLineR, CircleVsStandardLine, hfN]
    rw [if_pos hN, if_pos hN]
  · rw [if_neg hN] at h2
    have h3 := forall_mem_append_left h2
    have h4 := forall_mem_append_right h2
    simp only [discriminant, List.forall_mem_cons, List.not_mem_nil, IsEmpty.forall_iff,
      implies_true, and_true] at h3
    obtain ⟨b1, b2, b3, b4⟩ := h3
    have hfD : fl (fl (fl (c.radius * c.radius) * ((s.A * s.A) + (s.B * s.B))) - fl (s.C * s.C))
        = (c.radius * c.radius) * ((s.A * s.A) + (s.B * s.B)) - (s.C * s.C) := by
      rw [b1, b2, b3, b4]
    by_cases hD : (c.radius * c.radius) * ((s.A * s.A) + (s.B * s.B)) - (s.C * s.C) = 0
    · simp only [CircleVsStandardLineR, CircleVsStandardLine, hfN, hfD]
      rw [if_neg hN, if_neg hN, if_pos hD, if_pos hD]
    · simp only [discriminant] at h4
      rw [if_neg hD] at h4
      simp only [List.forall_mem_cons, List.not_mem_nil, IsEmpty.forall_iff, implies_true,
        and_true] at h4
      obtain ⟨d1, d2, d3, d4, d5, d6, d7, d8, d9, d10, d11, d12, d13, d14, d15, d16⟩ := h4
      simp only [CircleVsStandardLineR, CircleVsStandardLine, hfN, hfD]
      rw [if_neg hN, if_neg hN, if_neg hD, if_neg hD]
      simp only [vf2d.addR, vf2d.add, d1, d2, d3, d4, d5, d6, d7, d8, d9, d10, d11, d12, d13,
        d14, d15, d16]

theorem LineVsCircleR_eq (fl : K → K) (sqrt : K → K) (l : Line K) (c : Circle K)
    (h : ∀ x ∈ LineVsCircle.ops sqrt l c, fl x = x) :
    LineVsCircleR fl sqrt l c = LineVsCircle sqrt l c := by
  unfold LineVsCircle.ops at h
  have h1 := forall_mem_append_left (forall_mem_append_left h)
  have h2 := forall_mem_append_right (forall_mem_append_left h)
  have h3 := forall_mem_append_right h
  simp only [List.forall_mem_cons, List.not_mem_nil, IsEmpty.forall_iff, implies_true,
    and_true] at h1
  obtain ⟨e1, e2, e3, e4⟩ := h1
  have ht : (⟨l.p1.subR fl c.pos, l.p2.subR fl c.pos⟩ : Line K) = localLine l c := by
    simp only [vf2d.subR, localLine, vf2d.sub, e1, e2, e3, e4]
  simp only [LineVsCircleR, ht, GetStandardFormR_eq fl _ h2,
    CircleVsStandardLineR_eq fl sqrt c _ h3]
  rfl

theorem CircleVsCircleR_eq (fl : K → K) (sqrt : K → K) (c1 c2 : Circle K)
    (h : ∀ x ∈ CircleVsCircle.ops sqrt c1 c2, fl x = x) :
    CircleVsCircleR fl sqrt c1 c2 = CircleVsCircle sqrt c1 c2 := by
  unfold CircleVsCircle.ops at h
  have h1 := forall_mem_append_left h
  have h2 := forall_mem_append_right h
  simp only [radicalLine, vf2d.sub, List.forall_mem_cons, List.not_mem_nil, IsEmpty.forall_iff,
    implies_true, and_true] at h1
  obtain ⟨e1, e2, e3, e4, e5, e6, e7, e8, e9, e10, e11, e12, e13, e14, e15, e16, e17, e18,
    e19⟩ := h1
  have hL : (⟨fl (2 * fl ((c2.pos.subR fl c1.pos).x - (c1.pos.subR fl c1.pos).x)),
        fl (2 * fl ((c2.pos.subR fl c1.pos).y - (c1.pos.subR fl c1.pos).y)),
        fl (fl (fl (fl (fl (fl (c1.radius * c1.radius)
            - fl ((c1.pos.subR fl c1.pos).x * (c1.pos.subR fl c1.pos).x))
            - fl ((c1.pos.subR fl c1.pos).y * (c1.pos.subR fl c1.pos).y))
            - fl (c2.radius * c2.radius))
            + fl ((c2.pos.subR fl c1.pos).x * (c2.pos.subR fl c1.pos).x))
            + fl ((c2.pos.subR fl c1.pos).y * (c2.pos.subR fl c1.pos).y))⟩ : StandardForm K)
      = radicalLine c1 c2 := by
    simp only [vf2d.subR, radicalLine, vf2d.sub, e1, e2, e3, e4, e5, e6, e7, e8, e9, e10, e11,
      e12, e13, e14, e15, e16, e17, e18, e19]
  simp only [CircleVsCircleR, hL, CircleVsStandardLineR_eq fl sqrt c1 _ h2]
  rfl

theorem PointInCircleR_eq (fl : K → K) (sqrt : K → K) (p : vf2d K) (c : Circle K)
    (h : ∀ x ∈ PointInCircle.ops p c, fl x = x) :
    PointInCircleR fl sqrt p c = PointInCircle sqrt p c := by
  simp only [PointInCircle.ops, List.forall_mem_cons, List.not_mem_nil, IsEmpty.forall_iff,
    implies_true, and_true] at h
  obtain ⟨e1, e2, e3, e4, e5⟩ := h
  simp only [PointInCircleR, PointInCircle, vf2d.subR, vf2d.sub, vf2d.mag, e1, e2, e3, e4, e5]

theorem PointInRectR_iff (fl : K → K) (p : vf2d K) (r : RectAABB K) :
    PointInRectR fl p r = true ↔
      (r.pos.x < p.x ∧ p.x < fl (r.pos.x + r.size.x) ∧ r.pos.y < p.y
        ∧ p.y < fl (r.pos.y + r.size.y)) := by
  simp only [PointInRectR, Bool.and_eq_true, decide_eq_true_eq, gt_iff_lt]
  tauto

theorem PointInRectR_eq_false_of_on_boundary (fl : K → K) (p : vf2d K) (r : RectAABB K)
    (h : p.x = r.pos.x ∨ p.x = fl (r.pos.x + r.size.x) ∨ p.y = r.pos.y
      ∨ p.y = fl (r.pos.y + r.size.y)) :
    PointInRectR fl p r = false := by
  rw [← Bool.not_eq_true, PointInRectR_iff]
  rintro ⟨h1, h2, h3, h4⟩
  rcases h with h | h | h | h
  · exact absurd h (ne_of_gt h1)
  · exact absurd h (ne_of_lt h2)
  · exact absurd h (ne_of_gt h3)
  · exact absurd h (ne_of_lt h4)

end Lemmas

/-! ## The claims -/

section Claims

variable {K : Type} [LinearOrderedField K]

/-- C6: the code at a line that misses the circle.  For `Circle{(0,0),1}` and
`Line{(0,5),(1,5)}` the discriminant is `-24`, and `LineVsCircle` returns two
points whatever `sqrt` gives at `-24`; so does `CircleVsStandardLine` on the
standard form of that line. -/
theorem LineVsCircle_negative_discriminant_two_points (sqrt : ℚ → ℚ) :
    discriminant (⟨⟨0, 0⟩, 1⟩ : Circle ℚ)
        (GetStandardForm (localLine (⟨⟨0, 5⟩, ⟨1, 5⟩⟩ : Line ℚ) ⟨⟨0, 0⟩, 1⟩)) = -24
      ∧ LineVsCircle sqrt (⟨⟨0, 5⟩, ⟨1, 5⟩⟩ : Line ℚ) ⟨⟨0, 0⟩, 1⟩
          = [⟨-(sqrt (-24)), 5⟩, ⟨sqrt (-24), 5⟩]
      ∧ CircleVsStandardLine sqrt (⟨⟨0, 0⟩, 1⟩ : Circle ℚ)
          (GetStandardForm (⟨⟨0, 5⟩, ⟨1, 5⟩⟩ : Line ℚ))
          = [⟨-(sqrt (-24)), 5⟩, ⟨sqrt (-24), 5⟩] := by
  refine ⟨?_, ?_, ?_⟩
  · norm_num [discriminant, GetStandardForm, localLine, vf2d.sub]
  · norm_num [LineVsCircle, CircleVsStandardLine, GetStandardForm, vf2d.sub, vf2d.add]
  · norm_num [CircleVsStandardLine, GetStandardForm, vf2d.add]

/-- C7: the code at a ray whose origin is far from `(0,0)`.  For
`Ray{(2000,0),(2001,0)}` the segment of `Ray::AsSegment` is `{(2000,0),(1000,0)}`,
and `LineVsRay` against the line `x = 1500` returns `(1500,0)`, a point behind
the origin of the ray. -/
theorem LineVsRay_returns_point_behind_origin :
    (⟨⟨2000, 0⟩, ⟨2001, 0⟩⟩ : Ray ℚ).pos ≠ (⟨⟨2000, 0⟩, ⟨2001, 0⟩⟩ : Ray ℚ).dir
      ∧ (⟨⟨2000, 0⟩, ⟨2001, 0⟩⟩ : Ray ℚ).AsSegment = ⟨⟨2000, 0⟩, ⟨1000, 0⟩⟩
      ∧ LineVsRay (⟨⟨1500, -1⟩, ⟨1500, 1⟩⟩ : Line ℚ) ⟨⟨2000, 0⟩, ⟨2001, 0⟩⟩ = [⟨1500, 0⟩]
      ∧ ¬ OnRay (⟨1500, 0⟩ : vf2d ℚ) ⟨⟨2000, 0⟩, ⟨2001, 0⟩⟩ := by
  refine ⟨by norm_num, by norm_num [Ray.AsSegment, vf2d.sub, vf2d.scale], ?_, ?_⟩
  · rw [LineVsRay, SegmentIntersections_eq_filter]
    norm_num [LineVsLine, GetStandardForm, Ray.AsLine, Ray.AsSegment, vf2d.sub, vf2d.scale,
      IsLegalSegment_iff, NULL_SEG]
  · rintro ⟨t, ht, hx, _⟩
    norm_num at hx
    linarith

/-- C8, as the code has it: `LineVsPolygon` is the concatenation of the blocks
`LineVsSegment l e_i` over the edges `e_i = Segment{v_i, v_((i+1) mod n)}` taken
in reverse decomposition order (closing edge first, edge 0 last). -/
theorem LineVsPolygon_eq_reverse_edge_blocks (l : Line K) (p : Polygon K) :
    LineVsPolygon l p = (edgesSpec p).reverse.flatMap (LineVsSegment l) :=
  polygon_loop_eq p (LineVsSegment l)

/-- C8, as stated, fails: for the triangle `(0,0), (4,0), (0,4)` and the line
`x = 1`, edge 0 gives `(1,0)` and edge 1 gives `(1,3)`, and `LineVsPolygon`
returns `[(1,3), (1,0)]`, not the concatenation in decomposition order. -/
theorem LineVsPolygon_not_decomposition_order :
    LineVsPolygon (⟨⟨1, -1⟩, ⟨1, 5⟩⟩ : Line ℚ) ⟨[⟨0, 0⟩, ⟨4, 0⟩, ⟨0, 4⟩]⟩ = [⟨1, 3⟩, ⟨1, 0⟩]
      ∧ (edgesSpec (⟨[⟨0, 0⟩, ⟨4, 0⟩, ⟨0, 4⟩]⟩ : Polygon ℚ)).flatMap
          (LineVsSegment (⟨⟨1, -1⟩, ⟨1, 5⟩⟩ : Line ℚ)) = [⟨1, 0⟩, ⟨1, 3⟩]
      ∧ LineVsPolygon (⟨⟨1, -1⟩, ⟨1, 5⟩⟩ : Line ℚ) ⟨[⟨0, 0⟩, ⟨4, 0⟩, ⟨0, 4⟩]⟩
          ≠ (edgesSpec (⟨[⟨0, 0⟩, ⟨4, 0⟩, ⟨0, 4⟩]⟩ : Polygon ℚ)).flatMap
              (LineVsSegment (⟨⟨1, -1⟩, ⟨1, 5⟩⟩ : Line ℚ)) := by
  have e0 : LineVsSegment (⟨⟨1, -1⟩, ⟨1, 5⟩⟩ : Line ℚ) ⟨⟨0, 0⟩, ⟨4, 0⟩⟩ = [⟨1, 0⟩] := by
    rw [LineVsSegment, SegmentIntersections_eq_filter]
    norm_num [LineVsLine, GetStandardForm, Segment.AsLine, IsLegalSegment_iff]
  have e1 : LineVsSegment (⟨⟨1, -1⟩, ⟨1, 5⟩⟩ : Line ℚ) ⟨⟨4, 0⟩, ⟨0, 4⟩⟩ = [⟨1, 3⟩] := by
    rw [LineVsSegment, SegmentIntersections_eq_filter]
    norm_num [LineVsLine, GetStandardForm, Segment.AsLine, IsLegalSegment_iff]
  have e2 : LineVsSegment (⟨⟨1, -1⟩, ⟨1, 5⟩⟩ : Line ℚ) ⟨⟨0, 4⟩, ⟨0, 0⟩⟩ = [] := by
    rw [LineVsSegment, SegmentIntersections_eq_filter]
    norm_num [LineVsLine, GetStandardForm, Segment.AsLine]
  have hedges : edgesSpec (⟨[⟨0, 0⟩, ⟨4, 0⟩, ⟨0, 4⟩]⟩ : Polygon ℚ)
      = [⟨⟨0, 0⟩, ⟨4, 0⟩⟩, ⟨⟨4, 0⟩, ⟨0, 4⟩⟩, ⟨⟨0, 4⟩, ⟨0, 0⟩⟩] := by
    simp [edgesSpec, List.range_succ]
  have hcode : LineVsPolygon (⟨⟨1, -1⟩, ⟨1, 5⟩⟩ : Line ℚ) ⟨[⟨0, 0⟩, ⟨4, 0⟩, ⟨0, 4⟩]⟩
      = [⟨1, 3⟩, ⟨1, 0⟩] := by
    rw [LineVsPolygon_eq, hedges]
    simp [List.flatMap, e0, e1, e2]
  have hspec : (edgesSpec (⟨[⟨0, 0⟩, ⟨4, 0⟩, ⟨0, 4⟩]⟩ : Polygon ℚ)).flatMap
      (LineVsSegment (⟨⟨1, -1⟩, ⟨1, 5⟩⟩ : Line ℚ)) = [⟨1, 0⟩, ⟨1, 3⟩] := by
    rw [hedges]
    simp [List.flatMap, e0, e1, e2]
  refine ⟨hcode, hspec, ?_⟩
  rw [hcode, hspec]
  norm_num

/-- C13, as the code has it: `CircleVsRectAABB(Circle{(5,5),20},
RectAABB{(0,0),(10,10)})` returns the empty sequence, for every `sqrt` whose value
at the discriminant `37500` of the four edges has a square above `2500` (the
exact root and every rounding of it): all candidates lie outside their edge. -/
theorem CircleVsRectAABB_scenario_empty (sqrt : K → K)
    (hS : 2500 < sqrt 37500 * sqrt 37500) :
    CircleVsRectAABB sqrt (⟨⟨5, 5⟩, 20⟩ : Circle K) ⟨⟨0, 0⟩, ⟨10, 10⟩⟩ = [] :=
  scenario_circle_rect_nil sqrt hS

/-- C13, over the reals with the real square root: the hypothesis holds and the
result is empty. -/
theorem CircleVsRectAABB_scenario_empty_witness :
    (2500 : ℝ) < Real.sqrt 37500 * Real.sqrt 37500
      ∧ CircleVsRectAABB Real.sqrt (⟨⟨5, 5⟩, 20⟩ : Circle ℝ) ⟨⟨0, 0⟩, ⟨10, 10⟩⟩ = [] := by
  have h : (2500 : ℝ) < Real.sqrt 37500 * Real.sqrt 37500 := by
    rw [Real.mul_self_sqrt (by norm_num)]
    norm_num
  exact ⟨h, CircleVsRectAABB_scenario_empty Real.sqrt h⟩

/-- C13, as stated, fails: over the reals with the real square root the result
of `CircleVsRectAABB(Circle{(5,5),20}, RectAABB{(0,0),(10,10)})` does not have
8 points. -/
theorem CircleVsRectAABB_scenario_not_eight :
    (CircleVsRectAABB Real.sqrt (⟨⟨5, 5⟩, 20⟩ : Circle ℝ) ⟨⟨0, 0⟩, ⟨10, 10⟩⟩).length ≠ 8 := by
  have h : (2500 : ℝ) < Real.sqrt 37500 * Real.sqrt 37500 := by
    rw [Real.mul_self_sqrt (by norm_num)]
    norm_num
  rw [scenario_circle_rect_nil Real.sqrt h]
  decide

/-- C14: `RayVsCircle(Ray{(0,0),(1,0)}, Circle{(5,0),1})` returns exactly `(4,0)`
and `(6,0)`, for every `sqrt` that is right at the discriminant `1000000`. -/
theorem RayVsCircle_scenario (sqrt : K → K) (hs : sqrt 1000000 = 1000) :
    RayVsCircle sqrt (⟨⟨0, 0⟩, ⟨1, 0⟩⟩ : Ray K) ⟨⟨5, 0⟩, 1⟩ = [⟨4, 0⟩, ⟨6, 0⟩] := by
  rw [RayVsCircle, SegmentIntersections_eq_filter, SegmentVsCircle_eq_filter]
  norm_num [LineVsCircle, CircleVsStandardLine, GetStandardForm, Segment.AsLine, Ray.AsSegment,
    vf2d.sub, vf2d.add, vf2d.scale, IsLegalSegment_iff, List.filter_cons, hs]

/-- C14, over the rationals with `Rat.sqrt`. -/
theorem RayVsCircle_scenario_witness :
    Rat.sqrt 1000000 = 1000
      ∧ RayVsCircle Rat.sqrt (⟨⟨0, 0⟩, ⟨1, 0⟩⟩ : Ray ℚ) ⟨⟨5, 0⟩, 1⟩ = [⟨4, 0⟩, ⟨6, 0⟩] := by
  have hs : Rat.sqrt 1000000 = 1000 := by
    rw [show (1000000 : ℚ) = 1000 * 1000 by norm_num]
    exact rat_sqrt_sq 1000 (by norm_num)
  exact ⟨hs, RayVsCircle_scenario Rat.sqrt hs⟩

/-- C19, as the code has it: when `seg2` is different from `NULL_SEG`,
`SegmentIntersections pts seg1 seg2` is the sub-list of `pts`, in the original
order, of the points that pass `IsLegalSegment` for `seg1` and for `seg2`; when
`seg2` is `NULL_SEG` (the default of the source, or a segment passed explicitly
that equals it) it is the sub-list of the points that pass for `seg1`. -/
theorem SegmentIntersections_sublist (pts : Points K) (seg1 seg2 : Segment K) :
    (seg2 ≠ NULL_SEG →
        SegmentIntersections pts seg1 seg2
          = pts.filter (fun p => IsLegalSegment p seg1 && IsLegalSegment p seg2))
      ∧ SegmentIntersections pts seg1 NULL_SEG = pts.filter (fun p => IsLegalSegment p seg1) := by
  constructor
  · intro h
    rw [SegmentIntersections_eq_filter]
    simp [h]
  · rw [SegmentIntersections_eq_filter]
    simp

/-- C19, at concrete inputs: with the two segments of scenario 3 the candidate
`(5,0)` is kept and `(15,0)` is dropped; with one segment `(5,0)` is kept. -/
theorem SegmentIntersections_sublist_witness :
    SegmentIntersections ([⟨15, 0⟩, ⟨5, 0⟩] : Points ℚ) ⟨⟨0, 0⟩, ⟨10, 0⟩⟩ ⟨⟨5, -5⟩, ⟨5, 5⟩⟩
        = [⟨5, 0⟩]
      ∧ SegmentIntersections ([⟨15, 0⟩, ⟨5, 0⟩] : Points ℚ) ⟨⟨0, 0⟩, ⟨10, 0⟩⟩ NULL_SEG
        = [⟨5, 0⟩] := by
  constructor
  · rw [(SegmentIntersections_sublist _ _ _).1 (by norm_num [NULL_SEG])]
    norm_num [List.filter_cons, IsLegalSegment_iff]
  · rw [(SegmentIntersections_sublist _ _ NULL_SEG).2]
    norm_num [List.filter_cons, IsLegalSegment_iff]

/-- C19, as stated, fails when the second segment passed explicitly equals the
sentinel: for `pts = [(5,0)]`, `seg1 = {(0,0),(10,0)}` and `seg2 = {(0,0),(0,0)}`
the point does not pass `IsLegalSegment` for `seg2`, yet the code returns it. -/
theorem SegmentIntersections_sentinel_skips_second_test :
    IsLegalSegment (⟨5, 0⟩ : vf2d ℚ) ⟨⟨0, 0⟩, ⟨0, 0⟩⟩ = false
      ∧ SegmentIntersections ([⟨5, 0⟩] : Points ℚ) ⟨⟨0, 0⟩, ⟨10, 0⟩⟩ ⟨⟨0, 0⟩, ⟨0, 0⟩⟩ = [⟨5, 0⟩]
      ∧ SegmentIntersections ([⟨5, 0⟩] : Points ℚ) ⟨⟨0, 0⟩, ⟨10, 0⟩⟩ ⟨⟨0, 0⟩, ⟨0, 0⟩⟩
          ≠ ([⟨5, 0⟩] : Points ℚ).filter
              (fun p => IsLegalSegment p ⟨⟨0, 0⟩, ⟨10, 0⟩⟩ && IsLegalSegment p ⟨⟨0, 0⟩, ⟨0, 0⟩⟩) := by
  have h0 : IsLegalSegment (⟨5, 0⟩ : vf2d ℚ) ⟨⟨0, 0⟩, ⟨0, 0⟩⟩ = false :=
    IsLegalSegment_NULL_SEG _
  have h1 : IsLegalSegment (⟨5, 0⟩ : vf2d ℚ) ⟨⟨0, 0⟩, ⟨10, 0⟩⟩ = true := by
    rw [IsLegalSegment_iff]
    norm_num
  have hcode : SegmentIntersections ([⟨5, 0⟩] : Points ℚ) ⟨⟨0, 0⟩, ⟨10, 0⟩⟩ ⟨⟨0, 0⟩, ⟨0, 0⟩⟩
      = [⟨5, 0⟩] := by
    rw [SegmentIntersections_singleton]
    simp [h1, NULL_SEG]
  refine ⟨h0, hcode, ?_⟩
  rw [hcode]
  simp [List.filter_cons, h0]

/-- C20: `LineVsPolygon l p` is `LineVsSegment l e_(n-1) ++ ... ++ LineVsSegment l e_0`:
the blocks of the edges `e_i = Segment{v_i, v_((i+1) mod n)}` appear in reverse edge
order and each block is kept as it is; the result is a permutation of the
edge-order concatenation; it is empty for a polygon without vertices; and for
every index `i` the loop visits, `PointAfter i` is the vertex at the index
`(i + 1) mod n`, which is in range. -/
theorem LineVsPolygon_blocks_reversed (l : Line K) (p : Polygon K) :
    LineVsPolygon l p = (((edgesSpec p).map (LineVsSegment l)).reverse).flatten
      ∧ List.Perm (LineVsPolygon l p) ((edgesSpec p).flatMap (LineVsSegment l))
      ∧ (p.points = [] → LineVsPolygon l p = [])
      ∧ (∀ i, i < p.points.length →
          ∃ h : (i + 1) % p.points.length < p.points.length,
            p.PointAfter i = p.points.get ⟨(i + 1) % p.points.length, h⟩) := by
  refine ⟨?_, ?_, ?_, ?_⟩
  · rw [LineVsPolygon_eq, List.flatMap_def, List.map_reverse]
  · rw [LineVsPolygon_eq]
    exact List.Perm.flatMap_right _ (List.reverse_perm _)
  · intro h
    simp only [LineVsPolygon, h, List.length_nil, List.range_zero, List.foldl_nil]
  · intro i hi
    have h : (i + 1) % p.points.length < p.points.length := Nat.mod_lt _ (by omega)
    refine ⟨h, ?_⟩
    rw [PointAfter_eq p i hi, List.getD_eq_getElem _ _ h, List.get_eq_getElem]

/-- C20, at a concrete input: for the triangle `(0,0), (4,0), (0,4)` and the line
`x = 1` the blocks of the edges are `[(1,0)]`, `[(1,3)]` and `[]`, and the result
is `[(1,3), (1,0)]`. -/
theorem LineVsPolygon_blocks_reversed_witness :
    (edgesSpec (⟨[⟨0, 0⟩, ⟨4, 0⟩, ⟨0, 4⟩]⟩ : Polygon ℚ)).map
        (LineVsSegment (⟨⟨1, -1⟩, ⟨1, 5⟩⟩ : Line ℚ)) = [[⟨1, 0⟩], [⟨1, 3⟩], []]
      ∧ LineVsPolygon (⟨⟨1, -1⟩, ⟨1, 5⟩⟩ : Line ℚ) ⟨[⟨0, 0⟩, ⟨4, 0⟩, ⟨0, 4⟩]⟩
          = [⟨1, 3⟩, ⟨1, 0⟩] := by
  have e0 : LineVsSegment (⟨⟨1, -1⟩, ⟨1, 5⟩⟩ : Line ℚ) ⟨⟨0, 0⟩, ⟨4, 0⟩⟩ = [⟨1, 0⟩] := by
    rw [LineVsSegment, SegmentIntersections_eq_filter]
    norm_num [LineVsLine, GetStandardForm, Segment.AsLine, IsLegalSegment_iff]
  have e1 : LineVsSegment (⟨⟨1, -1⟩, ⟨1, 5⟩⟩ : Line ℚ) ⟨⟨4, 0⟩, ⟨0, 4⟩⟩ = [⟨1, 3⟩] := by
    rw [LineVsSegment, SegmentIntersections_eq_filter]
    norm_num [LineVsLine, GetStandardForm, Segment.AsLine, IsLegalSegment_iff]
  have e2 : LineVsSegment (⟨⟨1, -1⟩, ⟨1, 5⟩⟩ : Line ℚ) ⟨⟨0, 4⟩, ⟨0, 0⟩⟩ = [] := by
    rw [LineVsSegment, SegmentIntersections_eq_filter]
    norm_num [LineVsLine, GetStandardForm, Segment.AsLine]
  have hedges : edgesSpec (⟨[⟨0, 0⟩, ⟨4, 0⟩, ⟨0, 4⟩]⟩ : Polygon ℚ)
      = [⟨⟨0, 0⟩, ⟨4, 0⟩⟩, ⟨⟨4, 0⟩, ⟨0, 4⟩⟩, ⟨⟨0, 4⟩, ⟨0, 0⟩⟩] := by
    simp [edgesSpec, List.range_succ]
  have hblocks : (edgesSpec (⟨[⟨0, 0⟩, ⟨4, 0⟩, ⟨0, 4⟩]⟩ : Polygon ℚ)).map
      (LineVsSegment (⟨⟨1, -1⟩, ⟨1, 5⟩⟩ : Line ℚ)) = [[⟨1, 0⟩], [⟨1, 3⟩], []] := by
    rw [hedges]
    simp only [List.map_cons, List.map_nil, e0, e1, e2]
  refine ⟨hblocks, ?_⟩
  rw [(LineVsPolygon_blocks_reversed _ _).1, hblocks]
  rfl

/-! ## The claims that depend on float rounding

The theorems of this part are about the float reading.  Each one assumes that no
float operation of the computation rounds at the input (`∀ x ∈ ops, fl x = x`);
its witness is an input of the specification under `round32`, and its
counterexample is an input at which an operation rounds. -/

/-- C1 (amended): for two lines with distinct defining points and non-parallel
directions, at which no float operation of `LineVsLine` rounds, the float
`LineVsLine` returns exactly one point, and that point is collinear with the
defining points of each of the two lines. -/
theorem LineVsLineR_single_point_on_both (fl : K → K) (l1 l2 : Line K)
    (h1 : l1.p1 ≠ l1.p2) (h2 : l2.p1 ≠ l2.p2) (hnp : ¬ Parallel l1 l2)
    (hex : ∀ x ∈ LineVsLine.ops l1 l2, fl x = x) :
    ∃ q, LineVsLineR fl l1 l2 = [q] ∧ OnLine q l1 ∧ OnLine q l2 := by
  rw [LineVsLineR_eq fl l1 l2 hex]
  exact LineVsLine_single_point_on_both l1 l2 h1 h2 hnp

/-- C1, at the input of the specification under binary32 rounding:
`Line{(0,0),(10,0)}` against `Line{(5,-5),(5,5)}`; no operation rounds and the
result is exactly `[(5,0)]`. -/
theorem LineVsLineR_single_point_witness :
    (∀ x ∈ LineVsLine.ops (⟨⟨0, 0⟩, ⟨10, 0⟩⟩ : Line ℚ) ⟨⟨5, -5⟩, ⟨5, 5⟩⟩, round32 x = x)
      ∧ LineVsLineR round32 (⟨⟨0, 0⟩, ⟨10, 0⟩⟩ : Line ℚ) ⟨⟨5, -5⟩, ⟨5, 5⟩⟩ = [⟨5, 0⟩]
      ∧ ∃ q, LineVsLineR round32 (⟨⟨0, 0⟩, ⟨10, 0⟩⟩ : Line ℚ) ⟨⟨5, -5⟩, ⟨5, 5⟩⟩ = [q]
          ∧ OnLine q (⟨⟨0, 0⟩, ⟨10, 0⟩⟩ : Line ℚ) ∧ OnLine q (⟨⟨5, -5⟩, ⟨5, 5⟩⟩ : Line ℚ) :=
  ⟨by decide!, by decide!,
    LineVsLineR_single_point_on_both round32 _ _ (by decide!) (by decide!)
      (by norm_num [Parallel, cross]) (by decide!)⟩

/-- C1, as stated, fails on the float code.  `Line{(0,0),(-4098,4097)}` and
`Line{(0,1),(-4097,4097)}` are not parallel (cross product `1`), but the float
determinant is `fl(4097 * 4097) - 4096 * 4098 = 0` and the result is empty; and
`Line{(0,0),(3,1)}` against `Line{(1,0),(1,1)}` returns the rounded point
`(1, 11184811 / 2^25)`, which is not on the first line. -/
theorem LineVsLineR_rounding_counterexample :
    ((⟨⟨0, 0⟩, ⟨-4098, 4097⟩⟩ : Line ℚ).p1 ≠ (⟨⟨0, 0⟩, ⟨-4098, 4097⟩⟩ : Line ℚ).p2
      ∧ (⟨⟨0, 1⟩, ⟨-4097, 4097⟩⟩ : Line ℚ).p1 ≠ (⟨⟨0, 1⟩, ⟨-4097, 4097⟩⟩ : Line ℚ).p2
      ∧ ¬ Parallel (⟨⟨0, 0⟩, ⟨-4098, 4097⟩⟩ : Line ℚ) ⟨⟨0, 1⟩, ⟨-4097, 4097⟩⟩
      ∧ LineVsLineR round32 (⟨⟨0, 0⟩, ⟨-4098, 4097⟩⟩ : Line ℚ) ⟨⟨0, 1⟩, ⟨-4097, 4097⟩⟩ = [])
    ∧ (LineVsLineR round32 (⟨⟨0, 0⟩, ⟨3, 1⟩⟩ : Line ℚ) ⟨⟨1, 0⟩, ⟨1, 1⟩⟩
          = [⟨1, 11184811 / 33554432⟩]
      ∧ ¬ OnLine (⟨1, 11184811 / 33554432⟩ : vf2d ℚ) ⟨⟨0, 0⟩, ⟨3, 1⟩⟩) :=
  ⟨⟨by decide!, by decide!, by norm_num [Parallel, cross], by decide!⟩,
    by decide!, by norm_num [OnLine]⟩

/-- C4 (amended): for a circle and a line with distinct defining points whose
discriminant is strictly positive, at which no float operation of `LineVsCircle`
rounds and the float square root is exact at the discriminant, the float
`LineVsCircle` returns exactly two distinct points; each is collinear with the
defining points of the line and at squared distance `radius^2` from `c.pos` (the
centre is added back once, by the solver). -/
theorem LineVsCircleR_two_points (fl : K → K) (sqrt : K → K) (l : Line K) (c : Circle K)
    (hne : l.p1 ≠ l.p2)
    (hpos : 0 < discriminant c (GetStandardForm (localLine l c)))
    (hsqrt : sqrt (discriminant c (GetStandardForm (localLine l c)))
        * sqrt (discriminant c (GetStandardForm (localLine l c)))
        = discriminant c (GetStandardForm (localLine l c)))
    (hex : ∀ x ∈ LineVsCircle.ops sqrt l c, fl x = x) :
    ∃ q1 q2, LineVsCircleR fl sqrt l c = [q1, q2] ∧ q1 ≠ q2
      ∧ OnLine q1 l ∧ OnLine q2 l
      ∧ sqDist q1 c.pos = c.radius * c.radius ∧ sqDist q2 c.pos = c.radius * c.radius := by
  rw [LineVsCircleR_eq fl sqrt l c hex]
  exact LineVsCircle_points sqrt l c hne (ne_of_gt hpos) hsqrt

/-- C4, at the input of the specification under binary32 rounding:
`Circle{(0,0),5}` against `Line{(-10,0),(10,0)}`; no operation rounds, the square
root of the discriminant `10000` is exact, and the result is `(-5,0)`, `(5,0)`. -/
theorem LineVsCircleR_two_points_witness :
    (∀ x ∈ LineVsCircle.ops sqrt32 (⟨⟨-10, 0⟩, ⟨10, 0⟩⟩ : Line ℚ) ⟨⟨0, 0⟩, 5⟩, round32 x = x)
      ∧ LineVsCircleR round32 sqrt32 (⟨⟨-10, 0⟩, ⟨10, 0⟩⟩ : Line ℚ) ⟨⟨0, 0⟩, 5⟩
          = [⟨-5, 0⟩, ⟨5, 0⟩]
      ∧ ∃ q1 q2, LineVsCircleR round32 sqrt32 (⟨⟨-10, 0⟩, ⟨10, 0⟩⟩ : Line ℚ) ⟨⟨0, 0⟩, 5⟩
            = [q1, q2] ∧ q1 ≠ q2
          ∧ OnLine q1 (⟨⟨-10, 0⟩, ⟨10, 0⟩⟩ : Line ℚ) ∧ OnLine q2 (⟨⟨-10, 0⟩, ⟨10, 0⟩⟩ : Line ℚ)
          ∧ sqDist q1 (⟨0, 0⟩ : vf2d ℚ) = 5 * 5 ∧ sqDist q2 (⟨0, 0⟩ : vf2d ℚ) = 5 * 5 :=
  ⟨by decide!, by decide!,
    LineVsCircleR_two_points round32 sqrt32 _ _ (by decide!) (by decide!) (by decide!)
      (by decide!)⟩

/-- C4, as stated, fails on the float code: for `Line{(0,h),(1,h)}` with
`h = 1 - 2^-24` and `Circle{(100000,0),1}` the defining points differ and the
discriminant is strictly positive, but both returned points round to
`(100000, h)`: the result is the same point twice. -/
theorem LineVsCircleR_same_point_twice :
    (⟨⟨0, 16777215 / 16777216⟩, ⟨1, 16777215 / 16777216⟩⟩ : Line ℚ).p1
        ≠ (⟨⟨0, 16777215 / 16777216⟩, ⟨1, 16777215 / 16777216⟩⟩ : Line ℚ).p2
      ∧ 0 < discriminant (⟨⟨100000, 0⟩, 1⟩ : Circle ℚ)
          (GetStandardForm (localLine
            (⟨⟨0, 16777215 / 16777216⟩, ⟨1, 16777215 / 16777216⟩⟩ : Line ℚ) ⟨⟨100000, 0⟩, 1⟩))
      ∧ LineVsCircleR round32 sqrt32
          (⟨⟨0, 16777215 / 16777216⟩, ⟨1, 16777215 / 16777216⟩⟩ : Line ℚ) ⟨⟨100000, 0⟩, 1⟩
          = [⟨100000, 16777215 / 16777216⟩, ⟨100000, 16777215 / 16777216⟩] :=
  ⟨by decide!, by decide!, by decide!⟩

/-- C5 (amended): for two circles with non-negative radii whose centres are at a
distance `d` with `|r1 - r2| < d < r1 + r2` (stated on the squares), at which no
float operation of `CircleVsCircle` rounds and the float square root is exact at
the discriminant, the float `CircleVsCircle` returns exactly two distinct points,
each at squared distance `r1^2` from `c1.pos` and `r2^2` from `c2.pos`. -/
theorem CircleVsCircleR_two_points (fl : K → K) (sqrt : K → K) (c1 c2 : Circle K)
    (hr1 : 0 ≤ c1.radius) (hr2 : 0 ≤ c2.radius)
    (hlo : (c1.radius - c2.radius) * (c1.radius - c2.radius) < sqDist c1.pos c2.pos)
    (hhi : sqDist c1.pos c2.pos < (c1.radius + c2.radius) * (c1.radius + c2.radius))
    (hsqrt : sqrt (discriminant c1 (radicalLine c1 c2)) * sqrt (discriminant c1 (radicalLine c1 c2))
        = discriminant c1 (radicalLine c1 c2))
    (hex : ∀ x ∈ CircleVsCircle.ops sqrt c1 c2, fl x = x) :
    ∃ q1 q2, CircleVsCircleR fl sqrt c1 c2 = [q1, q2] ∧ q1 ≠ q2
      ∧ sqDist q1 c1.pos = c1.radius * c1.radius ∧ sqDist q1 c2.pos = c2.radius * c2.radius
      ∧ sqDist q2 c1.pos = c1.radius * c1.radius ∧ sqDist q2 c2.pos = c2.radius * c2.radius := by
  rw [CircleVsCircleR_eq fl sqrt c1 c2 hex]
  exact CircleVsCircle_two_points sqrt c1 c2 hr1 hr2 hlo hhi hsqrt

/-- C5, at a concrete input under binary32 rounding: the circles of radius `5`
around `(0,0)` and `(6,0)`; no operation rounds and the result is `(3,-4)`,
`(3,4)`. -/
theorem CircleVsCircleR_two_points_witness :
    (∀ x ∈ CircleVsCircle.ops sqrt32 (⟨⟨0, 0⟩, 5⟩ : Circle ℚ) ⟨⟨6, 0⟩, 5⟩, round32 x = x)
      ∧ CircleVsCircleR round32 sqrt32 (⟨⟨0, 0⟩, 5⟩ : Circle ℚ) ⟨⟨6, 0⟩, 5⟩
          = [⟨3, -4⟩, ⟨3, 4⟩]
      ∧ ∃ q1 q2, CircleVsCircleR round32 sqrt32 (⟨⟨0, 0⟩, 5⟩ : Circle ℚ) ⟨⟨6, 0⟩, 5⟩ = [q1, q2]
          ∧ q1 ≠ q2
          ∧ sqDist q1 (⟨0, 0⟩ : vf2d ℚ) = 5 * 5 ∧ sqDist q1 (⟨6, 0⟩ : vf2d ℚ) = 5 * 5
          ∧ sqDist q2 (⟨0, 0⟩ : vf2d ℚ) = 5 * 5 ∧ sqDist q2 (⟨6, 0⟩ : vf2d ℚ) = 5 * 5 :=
  ⟨by decide!, by decide!,
    CircleVsCircleR_two_points round32 sqrt32 _ _ (by decide!) (by decide!) (by decide!)
      (by decide!) (by decide!) (by decide!)⟩

/-- C5, as stated, fails on the float code: `Circle{(0,0),360}` and
`Circle{(336,132),1}` have non-negative radii and `359^2 < d^2 = 130320 < 361^2`,
but the float discriminant rounds to `0` and the result is empty. -/
theorem CircleVsCircleR_crossing_empty :
    (0 : ℚ) ≤ (⟨⟨0, 0⟩, 360⟩ : Circle ℚ).radius ∧ (0 : ℚ) ≤ (⟨⟨336, 132⟩, 1⟩ : Circle ℚ).radius
      ∧ ((360 : ℚ) - 1) * (360 - 1) < sqDist (⟨0, 0⟩ : vf2d ℚ) ⟨336, 132⟩
      ∧ sqDist (⟨0, 0⟩ : vf2d ℚ) ⟨336, 132⟩ < ((360 : ℚ) + 1) * (360 + 1)
      ∧ CircleVsCircleR round32 sqrt32 (⟨⟨0, 0⟩, 360⟩ : Circle ℚ) ⟨⟨336, 132⟩, 1⟩ = [] :=
  ⟨by decide!, by decide!, by decide!, by decide!, by decide!⟩

/-- C12 (amended): for two circles whose discriminant is not negative and at which
no float operation of `CircleVsCircle` rounds in either argument order,
`CircleVsCircle(c1, c2)` and `CircleVsCircle(c2, c1)` in the float reading return
the same set of points; the second list is the first one reversed, so both are
empty together.  The discriminant is the same in both orders; at a negative one
the square root of the source is NaN, which has no value in this reading. -/
theorem CircleVsCircleR_same_points (fl : K → K) (sqrt : K → K) (c1 c2 : Circle K)
    (_hD : 0 ≤ discriminant c1 (radicalLine c1 c2))
    (h12 : ∀ x ∈ CircleVsCircle.ops sqrt c1 c2, fl x = x)
    (h21 : ∀ x ∈ CircleVsCircle.ops sqrt c2 c1, fl x = x) :
    (∀ q, q ∈ CircleVsCircleR fl sqrt c1 c2 ↔ q ∈ CircleVsCircleR fl sqrt c2 c1)
      ∧ (CircleVsCircleR fl sqrt c1 c2 = [] ↔ CircleVsCircleR fl sqrt c2 c1 = [])
      ∧ CircleVsCircleR fl sqrt c2 c1 = (CircleVsCircleR fl sqrt c1 c2).reverse := by
  rw [CircleVsCircleR_eq fl sqrt c1 c2 h12, CircleVsCircleR_eq fl sqrt c2 c1 h21]
  have h := CircleVsCircle_swap sqrt c1 c2
  refine ⟨?_, ?_, h⟩
  · intro q
    rw [h, List.mem_reverse]
  · rw [h, List.reverse_eq_nil_iff]

/-- C12, at a concrete input under binary32 rounding: for the circles of radius
`5` around `(0,0)` and `(6,0)` no operation rounds in either order, and the two
results are `[(3,-4),(3,4)]` and `[(3,4),(3,-4)]`. -/
theorem CircleVsCircleR_same_points_witness :
    (0 : ℚ) ≤ discriminant (⟨⟨0, 0⟩, 5⟩ : Circle ℚ) (radicalLine ⟨⟨0, 0⟩, 5⟩ ⟨⟨6, 0⟩, 5⟩)
      ∧ (∀ x ∈ CircleVsCircle.ops sqrt32 (⟨⟨0, 0⟩, 5⟩ : Circle ℚ) ⟨⟨6, 0⟩, 5⟩, round32 x = x)
      ∧ (∀ x ∈ CircleVsCircle.ops sqrt32 (⟨⟨6, 0⟩, 5⟩ : Circle ℚ) ⟨⟨0, 0⟩, 5⟩, round32 x = x)
      ∧ CircleVsCircleR round32 sqrt32 (⟨⟨0, 0⟩, 5⟩ : Circle ℚ) ⟨⟨6, 0⟩, 5⟩ = [⟨3, -4⟩, ⟨3, 4⟩]
      ∧ CircleVsCircleR round32 sqrt32 (⟨⟨6, 0⟩, 5⟩ : Circle ℚ) ⟨⟨0, 0⟩, 5⟩
          = [⟨3, 4⟩, ⟨3, -4⟩]
      ∧ ∀ q, q ∈ CircleVsCircleR round32 sqrt32 (⟨⟨0, 0⟩, 5⟩ : Circle ℚ) ⟨⟨6, 0⟩, 5⟩
          ↔ q ∈ CircleVsCircleR round32 sqrt32 (⟨⟨6, 0⟩, 5⟩ : Circle ℚ) ⟨⟨0, 0⟩, 5⟩ :=
  ⟨by decide!, by decide!, by decide!, by decide!, by decide!,
    (CircleVsCircleR_same_points round32 sqrt32 _ _ (by decide!) (by decide!) (by decide!)).1⟩

/-- C12, as stated, fails on the float code: for `c1 = Circle{(0,0),360}` and
`c2 = Circle{(336,132),1}` the float discriminant rounds to `0` in the order
`(c1, c2)`, which gives the empty sequence, and is `1439` in the order
`(c2, c1)`, which gives two points. -/
theorem CircleVsCircleR_orders_differ :
    (0 : ℚ) ≤ discriminant (⟨⟨0, 0⟩, 360⟩ : Circle ℚ) (radicalLine ⟨⟨0, 0⟩, 360⟩ ⟨⟨336, 132⟩, 1⟩)
      ∧ CircleVsCircleR round32 sqrt32 (⟨⟨0, 0⟩, 360⟩ : Circle ℚ) ⟨⟨336, 132⟩, 1⟩ = []
      ∧ CircleVsCircleR round32 sqrt32 (⟨⟨336, 132⟩, 1⟩ : Circle ℚ) ⟨⟨0, 0⟩, 360⟩
          = [⟨5489481 / 16384, 8630027 / 65536⟩, ⟨10980221 / 32768, 8623617 / 65536⟩] :=
  ⟨by decide!, by decide!, by decide!⟩

/-- C16 (amended): both containment predicates exclude the boundary they compute.
When no float operation of `PointInCircle` rounds and the float square root is
exact and non-negative at the squared distance, `PointInCircle p c` holds iff the
distance `sqrt (sqDist c.pos p)` is strictly below `c.radius`, iff `0 < radius` and
the squared distance is below `radius^2`, and it is false when the distance equals
the radius.  For every rounding, `PointInRect p r` holds iff
`r.pos.x < p.x < fl(r.pos.x + r.size.x)` and `r.pos.y < p.y < fl(r.pos.y + r.size.y)`,
the far edges being the float sums; it is false on the four edge lines so computed
and at the four vertices of `r.AsPolygon`; when the two sums do not round, the far
edges are `r.pos.x + r.size.x` and `r.pos.y + r.size.y`. -/
theorem containmentR_excludes_boundary (fl : K → K) (sqrt : K → K) (p : vf2d K)
    (c : Circle K) (r : RectAABB K)
    (hs0 : 0 ≤ sqrt (sqDist c.pos p))
    (hs : sqrt (sqDist c.pos p) * sqrt (sqDist c.pos p) = sqDist c.pos p)
    (hex : ∀ x ∈ PointInCircle.ops p c, fl x = x) :
    (PointInCircleR fl sqrt p c = true ↔ sqrt (sqDist c.pos p) < c.radius)
      ∧ (PointInCircleR fl sqrt p c = true ↔
          (0 < c.radius ∧ sqDist p c.pos < c.radius * c.radius))
      ∧ (sqrt (sqDist c.pos p) = c.radius → PointInCircleR fl sqrt p c = false)
      ∧ (PointInRectR fl p r = true ↔
          (r.pos.x < p.x ∧ p.x < fl (r.pos.x + r.size.x) ∧ r.pos.y < p.y
            ∧ p.y < fl (r.pos.y + r.size.y)))
      ∧ ((p.x = r.pos.x ∨ p.x = fl (r.pos.x + r.size.x) ∨ p.y = r.pos.y
            ∨ p.y = fl (r.pos.y + r.size.y)) → PointInRectR fl p r = false)
      ∧ (∀ v ∈ (r.AsPolygonR fl).points, PointInRectR fl v r = false)
      ∧ ((fl (r.pos.x + r.size.x) = r.pos.x + r.size.x
            ∧ fl (r.pos.y + r.size.y) = r.pos.y + r.size.y) →
          (PointInRectR fl p r = true ↔
            (r.pos.x < p.x ∧ p.x < r.pos.x + r.size.x ∧ r.pos.y < p.y
              ∧ p.y < r.pos.y + r.size.y))) := by
  obtain ⟨c1, c2, c3, _, _, _⟩ := containment_excludes_boundary sqrt p c r hs0 hs
  rw [PointInCircleR_eq fl sqrt p c hex]
  refine ⟨c1, c2, c3, PointInRectR_iff fl p r, PointInRectR_eq_false_of_on_boundary fl p r,
    ?_, ?_⟩
  · intro v hv
    apply PointInRectR_eq_false_of_on_boundary
    simp only [RectAABB.AsPolygonR, vf2d.addR, List.mem_cons, List.mem_singleton,
      List.not_mem_nil, or_false] at hv
    rcases hv with rfl | rfl | rfl | rfl
    · exact Or.inl rfl
    · exact Or.inr (Or.inl rfl)
    · exact Or.inr (Or.inl rfl)
    · exact Or.inl rfl
  · rintro ⟨hx, hy⟩
    rw [PointInRectR_iff, hx, hy]

/-- C16, at a concrete input under binary32 rounding, where no operation rounds:
`(3,4)` is at distance `5` from the centre of `Circle{(0,0),5}` and is not in the
circle, and it lies on the right edge of `RectAABB{(0,0),(3,8)}` and is not in the
rectangle. -/
theorem containmentR_excludes_boundary_witness :
    (∀ x ∈ PointInCircle.ops (⟨3, 4⟩ : vf2d ℚ) ⟨⟨0, 0⟩, 5⟩, round32 x = x)
      ∧ sqrt32 (sqDist (⟨0, 0⟩ : vf2d ℚ) ⟨3, 4⟩) = 5
      ∧ PointInCircleR round32 sqrt32 (⟨3, 4⟩ : vf2d ℚ) ⟨⟨0, 0⟩, 5⟩ = false
      ∧ PointInRectR round32 (⟨3, 4⟩ : vf2d ℚ) ⟨⟨0, 0⟩, ⟨3, 8⟩⟩ = false := by
  have hex : ∀ x ∈ PointInCircle.ops (⟨3, 4⟩ : vf2d ℚ) ⟨⟨0, 0⟩, 5⟩, round32 x = x := by decide!
  have hs : sqrt32 (sqDist (⟨0, 0⟩ : vf2d ℚ) ⟨3, 4⟩) = 5 := by decide!
  have h := containmentR_excludes_boundary round32 sqrt32 (⟨3, 4⟩ : vf2d ℚ) ⟨⟨0, 0⟩, 5⟩
    ⟨⟨0, 0⟩, ⟨3, 8⟩⟩ (by decide!) (by decide!) hex
  exact ⟨hex, hs, h.2.2.1 hs, h.2.2.2.2.1 (Or.inr (Or.inl (by decide!)))⟩

/-- C16, as stated, fails on the float code: `(5551, 23868)` is at distance exactly
`24505` from `(0,0)`, but the float magnitude rounds below `24505` and
`PointInCircle` is true; and `(16777220, 5)` is strictly inside
`RectAABB{(16777216,0),(5,10)}`, but the float sum `16777216 + 5` rounds to
`16777220` and `PointInRect` is false. -/
theorem containmentR_boundary_counterexample :
    (sqDist (⟨5551, 23868⟩ : vf2d ℚ) ⟨0, 0⟩ = 24505 * 24505
        ∧ PointInCircleR round32 sqrt32 (⟨5551, 23868⟩ : vf2d ℚ) ⟨⟨0, 0⟩, 24505⟩ = true)
      ∧ (((16777216 : ℚ) < 16777220 ∧ (16777220 : ℚ) < 16777216 + 5
            ∧ (0 : ℚ) < 5 ∧ (5 : ℚ) < 0 + 10)
        ∧ PointInRectR round32 (⟨16777220, 5⟩ : vf2d ℚ) ⟨⟨16777216, 0⟩, ⟨5, 10⟩⟩ = false) :=
  ⟨⟨by decide!, by decide!⟩, ⟨by decide!, by decide!⟩⟩

end Claims

end Collisions2D
